import Mathlib

/-!
Verification development for the hackathon-todo repository.

The backend (FastAPI + SQLModel) and the console to-do app are shallowly
embedded: database rows become Lean structures, the database a structure of
lists, machine time a natural number of UTC seconds, and every endpoint or
service method a pure function threading the database state explicitly.
HTTP failures (`HTTPException`) become an `Except` error carrying the status
code and detail string.  Python `datetime` values are modelled as integer
timestamps; `str`/`int` and `isoformat`/`fromisoformat` are modelled by a
decimal rendering `pyStr` and its parser `pyInt`, with the round-trip proved
below, which is the only property the sources rely on.
-/

namespace TodoSpec

/-! ## Decimal rendering and parsing (models Python `str(n)` / `int(s)`) -/

/-- Little-endian decimal digits of `n` as characters, empty for `0`; the
fuel argument (any bound on the number of digits, `n` itself suffices) keeps
the recursion structural so that the kernel can evaluate it. -/
def natCharsLEAux : Nat → Nat → List Char
  | 0, _ => []
  | fuel + 1, n =>
    if n = 0 then [] else Char.ofNat (48 + n % 10) :: natCharsLEAux fuel (n / 10)

/-- Little-endian decimal digits of `n` as characters, empty for `0`. -/
def natCharsLE (n : Nat) : List Char := natCharsLEAux n n

/-- Models Python `str(n)` for a nonnegative integer. -/
def pyStr (n : Nat) : String :=
  if n = 0 then "0" else String.mk (natCharsLE n).reverse

/-- Value of a little-endian list of decimal digit characters; `none` when a
character is not a digit. -/
def digitsToNatLE : List Char → Option Nat
  | [] => some 0
  | c :: cs =>
    if c.isDigit then (digitsToNatLE cs).map (fun v => (c.toNat - 48) + 10 * v)
    else none

/-- Models Python `int(s)` on the nonnegative inputs the sources produce
(`str(todo_id)`, numeric task identifiers).  Surrounding whitespace and sign
handling of Python `int` are not modelled; no caller in the sources relies
on them. -/
def pyInt (s : String) : Option Nat :=
  if s.data = [] then none else digitsToNatLE s.data.reverse

theorem digitsToNatLE_natCharsLEAux (fuel n : Nat) (hf : n ≤ fuel) :
    digitsToNatLE (natCharsLEAux fuel n) = some n := by
  induction fuel generalizing n with
  | zero =>
    have : n = 0 := Nat.le_zero.mp hf
    subst this
    rfl
  | succ fuel ih =>
    rw [natCharsLEAux]
    by_cases h : n = 0
    · subst h
      rw [if_pos rfl]
      rfl
    · rw [if_neg h]
      have hdig : (Char.ofNat (48 + n % 10)).isDigit = true ∧
          (Char.ofNat (48 + n % 10)).toNat - 48 = n % 10 := by
        have hd : n % 10 < 10 := Nat.mod_lt _ (by decide)
        set d := n % 10 with hdef
        interval_cases d <;> exact ⟨by decide, by decide⟩
      have hlt : n / 10 ≤ fuel := by
        have h1 : n / 10 < n := Nat.div_lt_self (Nat.pos_of_ne_zero h) (by decide)
        omega
      rw [digitsToNatLE, if_pos hdig.1, ih (n / 10) hlt]
      show some ((Char.ofNat (48 + n % 10)).toNat - 48 + 10 * (n / 10)) = some n
      rw [hdig.2]
      exact congrArg some (Nat.mod_add_div n 10)

theorem digitsToNatLE_natCharsLE (n : Nat) :
    digitsToNatLE (natCharsLE n) = some n :=
  digitsToNatLE_natCharsLEAux n n (Nat.le_refl n)

theorem natCharsLE_ne_nil {n : Nat} (h : n ≠ 0) : natCharsLE n ≠ [] := by
  match n, h with
  | m + 1, _ =>
    show natCharsLEAux (m + 1) (m + 1) ≠ []
    rw [natCharsLEAux, if_neg (Nat.succ_ne_zero m)]
    exact List.cons_ne_nil _ _

/-- Round trip: parsing the decimal rendering of `n` gives back `n`.  This is
the property `load_state` (console app) and `_resolve_task_impl` (backend)
rely on when they convert ids to strings and back. -/
theorem pyInt_pyStr (n : Nat) : pyInt (pyStr n) = some n := by
  by_cases h : n = 0
  · subst h; decide
  · rw [pyStr, if_neg h, pyInt]
    have hdata : (String.mk (natCharsLE n).reverse).data = (natCharsLE n).reverse := rfl
    rw [hdata]
    have hne : (natCharsLE n).reverse ≠ [] := by
      intro hcon
      exact natCharsLE_ne_nil h (List.reverse_eq_nil_iff.mp hcon)
    rw [if_neg hne, List.reverse_reverse]
    exact digitsToNatLE_natCharsLE n

/-! ## Rate limiter (src/backend/src/services/ai/rate_limiter.py)

Time is a natural number of seconds since the UTC epoch, so the start of the
current UTC day (`now.replace(hour=0, minute=0, second=0, microsecond=0)`) is
`now - now % 86400`. -/

/-- Seconds in one day. -/
def secondsPerDay : Nat := 86400

/-- Midnight UTC of the day containing `t`. -/
def dayStart (t : Nat) : Nat := t - t % secondsPerDay

/-- State of `RateLimiter`: the default limit fixed at construction and the
in-memory per-user usage map `{user_id: [(timestamp, count), ...]}`
(`defaultdict(list)`: a user never touched maps to `[]`). -/
structure RateLimiter where
  default_limit_per_day : Nat
  usage : Nat → List (Nat × Nat)

/-- The limit chosen by `check_limit`:
`limit = custom_limit if custom_limit else self.default_limit_per_day`.
Python truthiness makes a custom limit of `0` (and `None`) fall back to the
default. -/
def effectiveLimit (rl : RateLimiter) (custom : Option Nat) : Nat :=
  match custom with
  | some c => if c = 0 then rl.default_limit_per_day else c
  | none => rl.default_limit_per_day

/-- `RateLimiter.check_limit`: prunes entries older than the start of the
current UTC day, sums the rest, and returns
`(allowed, remaining, resets_at)` together with the mutated limiter state. -/
def check_limit (rl : RateLimiter) (user_id : Nat) (custom : Option Nat)
    (now : Nat) : (Bool × Nat × Nat) × RateLimiter :=
  let limit := effectiveLimit rl custom
  let day_start := dayStart now
  let day_end := day_start + secondsPerDay
  let pruned := (rl.usage user_id).filter (fun e => decide (day_start ≤ e.1))
  let total := (pruned.map Prod.snd).sum
  let remaining := limit - total
  let allowed := decide (0 < remaining)
  ((allowed, remaining, day_end),
    { rl with usage := fun u => if u = user_id then pruned else rl.usage u })

/-- `RateLimiter.increment_usage`: appends `(now, count)` to the user's
entry list. -/
def increment_usage (rl : RateLimiter) (user_id : Nat) (count : Nat)
    (now : Nat) : RateLimiter :=
  { rl with
    usage := fun u =>
      if u = user_id then rl.usage user_id ++ [(now, count)] else rl.usage u }

/-- Sum of the counts of the entries recorded since the start of the UTC day
containing `now` (what `check_limit` compares against the limit). -/
def daySum (entries : List (Nat × Nat)) (now : Nat) : Nat :=
  ((entries.filter (fun e => decide (dayStart now ≤ e.1))).map Prod.snd).sum

/-- The operations that can touch the limiter state between two checks. -/
inductive RLOp where
  | check (u : Nat) (custom : Option Nat) (t : Nat)
  | incr (u : Nat) (count : Nat) (t : Nat)

/-- The wall-clock time at which an operation runs. -/
def RLOp.time : RLOp → Nat
  | .check _ _ t => t
  | .incr _ _ t => t

/-- Effect of one operation on the limiter state. -/
def applyRLOp (rl : RateLimiter) : RLOp → RateLimiter
  | .check u c t => (check_limit rl u c t).2
  | .incr u c t => increment_usage rl u c t

/-- Effect of a sequence of operations on the limiter state. -/
def applyRLOps (rl : RateLimiter) (ops : List RLOp) : RateLimiter :=
  ops.foldl applyRLOp rl

theorem dayStart_le_self (t : Nat) : dayStart t ≤ t := Nat.sub_le _ _

theorem daySum_filter (l : List (Nat × Nat)) (t now : Nat)
    (h : dayStart t = dayStart now) :
    daySum (l.filter (fun e => decide (dayStart t ≤ e.1))) now = daySum l now := by
  unfold daySum
  rw [h, List.filter_filter]
  simp only [Bool.and_self]

theorem daySum_append_one (l : List (Nat × Nat)) (t c now : Nat)
    (h : dayStart now ≤ t) :
    daySum (l ++ [(t, c)]) now = daySum l now + c := by
  unfold daySum
  rw [List.filter_append, List.map_append, List.sum_append]
  congr 1
  simp [h]

theorem daySum_le_applyRLOp (rl : RateLimiter) (u now : Nat) (op : RLOp)
    (hop : dayStart op.time = dayStart now) :
    daySum (rl.usage u) now ≤ daySum ((applyRLOp rl op).usage u) now := by
  cases op with
  | check u' c t =>
    simp only [RLOp.time] at hop
    simp only [applyRLOp, check_limit]
    by_cases hu : u = u'
    · subst hu
      rw [if_pos rfl]
      exact Nat.le_of_eq (daySum_filter _ _ _ hop).symm
    · rw [if_neg hu]
  | incr u' c t =>
    simp only [RLOp.time] at hop
    simp only [applyRLOp, increment_usage]
    by_cases hu : u = u'
    · subst hu
      rw [if_pos rfl, daySum_append_one _ _ _ _ (hop ▸ dayStart_le_self t)]
      exact Nat.le_add_right _ _
    · rw [if_neg hu]

theorem daySum_congr_day (l : List (Nat × Nat)) (a b : Nat)
    (h : dayStart a = dayStart b) : daySum l a = daySum l b := by
  unfold daySum
  rw [h]

theorem default_applyRLOp (rl : RateLimiter) (op : RLOp) :
    (applyRLOp rl op).default_limit_per_day = rl.default_limit_per_day := by
  cases op <;> rfl

theorem default_applyRLOps (rl : RateLimiter) (ops : List RLOp) :
    (applyRLOps rl ops).default_limit_per_day = rl.default_limit_per_day := by
  induction ops generalizing rl with
  | nil => rfl
  | cons op ops ih => exact (ih (applyRLOp rl op)).trans (default_applyRLOp rl op)

theorem effectiveLimit_applyRLOps (rl : RateLimiter) (ops : List RLOp)
    (custom : Option Nat) :
    effectiveLimit (applyRLOps rl ops) custom = effectiveLimit rl custom := by
  unfold effectiveLimit
  cases custom with
  | none => exact default_applyRLOps rl ops
  | some c =>
    change (if c = 0 then (applyRLOps rl ops).default_limit_per_day else c)
      = if c = 0 then rl.default_limit_per_day else c
    by_cases hc : c = 0
    · rw [if_pos hc, if_pos hc]
      exact default_applyRLOps rl ops
    · rw [if_neg hc, if_neg hc]

/-- Unfolding equation for `check_limit`, phrased through `daySum`. -/
theorem check_limit_eq (rl : RateLimiter) (u : Nat) (custom : Option Nat)
    (now : Nat) :
    check_limit rl u custom now =
      ((decide (0 < effectiveLimit rl custom - daySum (rl.usage u) now),
        effectiveLimit rl custom - daySum (rl.usage u) now,
        dayStart now + secondsPerDay),
       { rl with
         usage := fun v =>
           if v = u then
             (rl.usage u).filter (fun e => decide (dayStart now ≤ e.1))
           else rl.usage v }) := rfl

theorem daySum_le_applyRLOps (rl : RateLimiter) (u now : Nat) (ops : List RLOp)
    (hops : ∀ op ∈ ops, dayStart op.time = dayStart now) :
    daySum (rl.usage u) now ≤ daySum ((applyRLOps rl ops).usage u) now := by
  induction ops generalizing rl with
  | nil => exact Nat.le_refl _
  | cons op ops ih =>
    have h1 := daySum_le_applyRLOp rl u now op (hops op (List.mem_cons_self _ _))
    have h2 := ih (applyRLOp rl op)
      (fun o ho => hops o (List.mem_cons_of_mem _ ho))
    exact Nat.le_trans h1 h2

/-- C5: once the usage recorded since the start of the current UTC day reaches
the effective daily limit, `check_limit` keeps returning `allowed = false`
with `remaining = 0` for every later check in the same UTC day — whatever
checks and increments (by any user, at times within that day) happen in
between — and the reset time it returns is the next UTC midnight.  Moreover
the state it leaves holds no entry from before the current UTC day. -/
theorem c5_rate_limit_blocked_until_day_rollover
    (rl : RateLimiter) (u : Nat) (custom : Option Nat) (now : Nat)
    (ops : List RLOp) (now' : Nat)
    (hfull : effectiveLimit rl custom ≤ daySum (rl.usage u) now)
    (hops : ∀ op ∈ ops, dayStart op.time = dayStart now)
    (hday : dayStart now' = dayStart now) :
    (check_limit (applyRLOps rl ops) u custom now').1
        = (false, 0, dayStart now + secondsPerDay)
      ∧ ∀ e ∈ ((check_limit (applyRLOps rl ops) u custom now').2.usage u),
          dayStart now ≤ e.1 := by
  have hle : effectiveLimit (applyRLOps rl ops) custom
      ≤ daySum ((applyRLOps rl ops).usage u) now' := by
    rw [effectiveLimit_applyRLOps, daySum_congr_day _ _ _ hday]
    exact Nat.le_trans hfull (daySum_le_applyRLOps rl u now ops hops)
  have hz : effectiveLimit (applyRLOps rl ops) custom
      - daySum ((applyRLOps rl ops).usage u) now' = 0 :=
    Nat.sub_eq_zero_of_le hle
  constructor
  · rw [check_limit_eq, hz, hday]
    rfl
  · intro e he
    rw [check_limit_eq] at he
    simp only [if_pos rfl] at he
    have := List.of_mem_filter he
    rw [hday] at this
    exact of_decide_eq_true this

/-- Witness for C5 at a concrete limiter state: default limit 2, user 7
already at 2 requests today, an increment and a check in between, a later
check at time 100 of the same UTC day. -/
theorem c5_rate_limit_blocked_until_day_rollover_witness :
    (check_limit
        (applyRLOps ⟨2, fun _ => [(3, 2)]⟩ [RLOp.incr 7 1 10, RLOp.check 7 none 20])
        7 none 100).1
      = (false, 0, dayStart 5 + secondsPerDay) :=
  (c5_rate_limit_blocked_until_day_rollover ⟨2, fun _ => [(3, 2)]⟩ 7 none 5
    [RLOp.incr 7 1 10, RLOp.check 7 none 20] 100 (by decide) (by decide)
    (by decide)).1

/-- C4 counterexample: `check_limit` with a custom override of `0` uses the
default limit (Python truthiness: `custom_limit if custom_limit else
default`), not the override.  Under the claim the effective limit would be
`0`, so the result would be `(false, 0, _)`; the code returns allowed with
the default limit's full remaining quota. -/
theorem c4_counterexample_zero_override :
    (check_limit ⟨100, fun _ => []⟩ 1 (some 0) 0).1 = (true, 100, secondsPerDay)
      ∧ ((true, 100, secondsPerDay) : Bool × Nat × Nat)
          ≠ (false, 0 - (0 : Nat), secondsPerDay) := by
  constructor
  · decide
  · decide

/-- C4 as amended: a custom per-user override takes precedence over the
default whenever it is nonzero; an override of `0` (like an absent one) falls
back to the default. -/
theorem c4_nonzero_override_takes_precedence (rl : RateLimiter)
    (u c now : Nat) (hc : c ≠ 0) :
    (check_limit rl u (some c) now).1
      = (decide (daySum (rl.usage u) now < c), c - daySum (rl.usage u) now,
         dayStart now + secondsPerDay) := by
  rw [check_limit_eq]
  have he : effectiveLimit rl (some c) = c := if_neg hc
  rw [he]
  have hdec : decide (0 < c - daySum (rl.usage u) now)
      = decide (daySum (rl.usage u) now < c) :=
    decide_eq_decide.mpr (by omega)
  rw [hdec]

/-- Witness for the amended C4: override 2 with 3 requests already used
today blocks the user even though the default limit is 100. -/
theorem c4_nonzero_override_takes_precedence_witness :
    (check_limit ⟨100, fun _ => [(5, 3)]⟩ 2 (some 2) 10).1
      = (false, 0, secondsPerDay) :=
  (c4_nonzero_override_takes_precedence ⟨100, fun _ => [(5, 3)]⟩ 2 2 10
    (by decide)).trans (by decide)

/-! ## Backend data model (src/backend/src/models.py)

`UUID` primary keys of `TaskAction` are modelled as naturals; `datetime`
columns as naturals (UTC seconds). -/

/-- A row of the `tasks` table. -/
structure Task where
  id : Nat
  user_id : Nat
  title : String
  description : Option String
  is_completed : Bool
  created_at : Nat
  updated_at : Nat
deriving DecidableEq, Repr

/-- The `ActionType` enum. -/
inductive ActionType where
  | create
  | update
  | delete
  | complete
  | query
deriving DecidableEq, Repr

/-- The `ConfirmationStatus` enum. -/
inductive ConfirmationStatus where
  | pending
  | confirmed
  | rejected
deriving DecidableEq, Repr

/-- The string `.value` of a `ConfirmationStatus` member. -/
def ConfirmationStatus.value : ConfirmationStatus → String
  | .pending => "pending"
  | .confirmed => "confirmed"
  | .rejected => "rejected"

/-- The `ExecutedStatus` enum. -/
inductive ExecutedStatus where
  | not_executed
  | executing
  | success
  | failed
deriving DecidableEq, Repr

/-- The `bulkCriteria` object of a delete action's extracted parameters.
Only the keys the code reads (`status`, `olderThan`) are modelled; an empty
criteria dict (falsy in Python) is modelled as the criteria being absent. -/
structure BulkCriteria where
  status : Option String
  olderThan : Option String
deriving DecidableEq, Repr

/-- The `filters` object of a query action's extracted parameters.  The
`dueDate` filter is read by the code but only logged (the `Task` model has no
due-date column), so it does not appear here. -/
structure QueryFilters where
  status : Option String
  titleContains : Option String
deriving DecidableEq, Repr

/-- The keys of `TaskAction.extracted_params` that the confirm/execute paths
read.  A key absent from the JSON dict is `none`. -/
structure ExtractedParams where
  title : Option String
  description : Option String
  target : Option String
  bulkCriteria : Option BulkCriteria
  filters : Option QueryFilters
deriving DecidableEq, Repr

/-- A row of the `task_actions` table (the columns the confirm/reject/execute
paths touch; `session_id`, `message_id` and `confidence_score` do not affect
any claim and are omitted). -/
structure TaskAction where
  id : Nat
  user_id : Nat
  action_type : ActionType
  extracted_params : ExtractedParams
  confirmation_status : ConfirmationStatus
  executed_status : ExecutedStatus
  task_id : Option Nat
  error_message : Option String
  created_at : Nat
  confirmed_at : Option Nat
  executed_at : Option Nat
deriving DecidableEq, Repr

/-- The database: the `tasks` and `task_actions` tables, plus the
autoincrement counter that assigns the next task id on insert. -/
structure DB where
  tasks : List Task
  actions : List TaskAction
  next_task_id : Nat
deriving DecidableEq, Repr

/-- Decidable equality for `Except` results (used only to let witnesses
evaluate by `decide`). -/
instance {e a : Type} [DecidableEq e] [DecidableEq a] :
    DecidableEq (Except e a) := fun x y =>
  match x, y with
  | .error u, .error v =>
    if h : u = v then .isTrue (by rw [h])
    else .isFalse (fun hc => h (Except.error.inj hc))
  | .error _, .ok _ => .isFalse (fun hc => Except.noConfusion hc)
  | .ok _, .error _ => .isFalse (fun hc => Except.noConfusion hc)
  | .ok u, .ok v =>
    if h : u = v then .isTrue (by rw [h])
    else .isFalse (fun hc => h (Except.ok.inj hc))

/-- An `HTTPException`: status code and detail string. -/
structure HttpError where
  code : Nat
  detail : String
deriving DecidableEq, Repr

/-- `validate_user_id_match` (src/backend/src/auth/middleware.py): 403 when
the path user id differs from the authenticated user id. -/
def validate_user_id_match (url_user_id token_user_id : Nat) :
    Except HttpError Unit :=
  if url_user_id ≠ token_user_id then
    .error ⟨403, "Cannot access other user's resources"⟩
  else .ok ()

/-- Python `str.strip()`: drop leading and trailing whitespace.  (Defined
over the character list so that it evaluates by kernel reduction; the ASCII
whitespace classes of Python and Lean agree on every input the claims
touch.) -/
def strip (s : String) : String :=
  String.mk
    (((s.data.dropWhile Char.isWhitespace).reverse.dropWhile
        Char.isWhitespace).reverse)

/-- Lower-casing over the character list (Python/SQL case folding restricted
to ASCII, which is all the sources exercise); defined structurally so the
kernel can evaluate it. -/
def strToLowerChars (s : String) : List Char :=
  s.data.map Char.toLower

/-- Whether `needle` occurs as a contiguous substring of `haystack`. -/
def containsSub (needle : List Char) : List Char → Bool
  | [] => needle.isEmpty
  | c :: rest => needle.isPrefixOf (c :: rest) || containsSub needle rest

/-- SQL `ilike '%pat%'`: case-insensitive substring test. -/
def ilikeContains (text pat : String) : Bool :=
  containsSub (strToLowerChars pat) (strToLowerChars text)

/-- Replace the row whose primary key equals `t.id` (the first such row; in a
real database the key is unique) with `t`. -/
def replaceTaskRow : List Task → Task → List Task
  | [], _ => []
  | x :: xs, t => if x.id = t.id then t :: xs else x :: replaceTaskRow xs t

/-- `replaceTaskRow` lifted to the database. -/
def DB.replaceTask (db : DB) (t : Task) : DB :=
  { db with tasks := replaceTaskRow db.tasks t }

/-- Replace the action row whose primary key equals `a.id` with `a`. -/
def replaceActionRow : List TaskAction → TaskAction → List TaskAction
  | [], _ => []
  | x :: xs, a => if x.id = a.id then a :: xs else x :: replaceActionRow xs a

/-- `replaceActionRow` lifted to the database. -/
def DB.replaceAction (db : DB) (a : TaskAction) : DB :=
  { db with actions := replaceActionRow db.actions a }

/-- Python list repr of a list of strings, as produced by
`f"... {[t['title'] for t in matches]}"` (quote escaping inside titles is
not modelled). -/
def pyStrListRepr (l : List String) : String :=
  "[" ++ String.intercalate ", " (l.map (fun s => "'" ++ s ++ "'")) ++ "]"

/-! ## Task action service (src/backend/src/services/task_action_service.py)

Each `_impl` method becomes a pure function from the service's `user_id` and
the database.  The result dictionaries become inductives whose constructors
carry exactly the keys the code writes. -/

/-- Result of `_execute_query_impl`: `{"success": True, "tasks": ..,
"count": ..}` (the per-task dicts carry the row's fields). -/
structure QueryResult where
  success : Bool
  tasks : List Task
  count : Nat
deriving DecidableEq, Repr

/-- `_execute_query_impl`: always filters by `user_id`, then by the status
filter (default `"all"`) and, when truthy, the `titleContains` ilike filter.
The `dueDate` filter is only logged (no due-date column). -/
def execute_query_impl (db : DB) (user_id : Nat) (filters : QueryFilters) :
    QueryResult :=
  let base := db.tasks.filter (fun t => decide (t.user_id = user_id))
  let status_filter := filters.status.getD "all"
  let afterStatus :=
    if status_filter = "completed" then base.filter (fun t => t.is_completed)
    else if status_filter = "pending" then base.filter (fun t => !t.is_completed)
    else base
  let afterTitle :=
    match filters.titleContains with
    | some pat => if pat ≠ "" then afterStatus.filter (fun t => ilikeContains t.title pat) else afterStatus
    | none => afterStatus
  ⟨true, afterTitle, afterTitle.length⟩

/-- The tasks of `user_id` whose title matches `identifier` case-insensitively
(`Task.title.ilike(f"%{identifier}%")` under the user filter). -/
def titleMatches (db : DB) (user_id : Nat) (identifier : String) : List Task :=
  db.tasks.filter
    (fun t => decide (t.user_id = user_id) && ilikeContains t.title identifier)

/-- The numeric-id branch of `_resolve_task_impl`: parse the identifier as an
integer and look up the first task with that id owned by the user. -/
def numericLookup (db : DB) (user_id : Nat) (identifier : String) :
    Option Task :=
  match pyInt identifier with
  | some tid =>
    db.tasks.find? (fun t => decide (t.id = tid) && decide (t.user_id = user_id))
  | none => none

/-- `_resolve_task_impl`: numeric id first; when that finds nothing, a
case-insensitive title substring search that succeeds only on exactly one
match. -/
def resolve_task_impl (db : DB) (user_id : Nat) (identifier : String) :
    Option Task :=
  match numericLookup db user_id identifier with
  | some t => some t
  | none =>
    let found := titleMatches db user_id identifier
    if found.length = 1 then found.head? else none

/-- Result of `_execute_update_impl` / `_execute_complete_impl`:
`ok` is `{"success": True, "task": .., "message": ..}`, `ambiguous` is
`{"success": False, "error": .., "needs_clarification": True,
"ambiguous_matches": ..}`, `err` is `{"success": False, "error": ..}`. -/
inductive TaskOpResult where
  | ok (task : Task) (message : String)
  | ambiguous (error : String) (candidates : List Task)
  | err (error : String)
deriving DecidableEq, Repr

/-- The `updates` dict passed to `_execute_update_impl`: outer `Option` is
key presence, inner is the value (`none` = Python `None`). -/
structure UpdateFields where
  title : Option (Option String)
  description : Option (Option String)
deriving DecidableEq, Repr

/-- Field updates of `_execute_update_impl`: title only when present and
truthy, description whenever the key is present, plus the `updated_at`
touch. -/
def applyUpdates (t : Task) (u : UpdateFields) (now : Nat) : Task :=
  let t1 :=
    match u.title with
    | some (some s) => if s ≠ "" then { t with title := s } else t
    | _ => t
  let t2 :=
    match u.description with
    | some d => { t1 with description := d }
    | none => t1
  { t2 with updated_at := now }

/-- `_execute_update_impl`. -/
def execute_update_impl (db : DB) (user_id : Nat) (identifier : String)
    (updates : UpdateFields) (now : Nat) : TaskOpResult × DB :=
  match resolve_task_impl db user_id identifier with
  | none =>
    let amb := titleMatches db user_id identifier
    if amb.length > 1 then
      (.ambiguous ("Multiple tasks found matching '" ++ identifier ++ "'") amb,
       db)
    else
      (.err ("Task '" ++ identifier ++ "' not found"), db)
  | some t =>
    let t2 := applyUpdates t updates now
    (.ok t2 ("Task '" ++ t2.title ++ "' updated successfully"),
     db.replaceTask t2)

/-- `_execute_complete_impl`: toggles `is_completed`. -/
def execute_complete_impl (db : DB) (user_id : Nat) (identifier : String)
    (now : Nat) : TaskOpResult × DB :=
  match resolve_task_impl db user_id identifier with
  | none =>
    let amb := titleMatches db user_id identifier
    if amb.length > 1 then
      (.ambiguous ("Multiple tasks found matching '" ++ identifier ++ "'") amb,
       db)
    else
      (.err ("Task '" ++ identifier ++ "' not found"), db)
  | some t =>
    let t2 := { t with is_completed := !t.is_completed, updated_at := now }
    let status_message := if t2.is_completed then "complete" else "incomplete"
    (.ok t2 ("Task '" ++ t2.title ++ "' marked as " ++ status_message),
     db.replaceTask t2)

/-- Result of `_execute_delete_impl`: `deleted` is the single-delete success
dict, `needsConfirmation` the bulk preview dict (`success=False`,
`deleted_count=0`, `requires_confirmation=True`), `ambiguous` and `err` as in
`TaskOpResult`. -/
inductive DeleteResult where
  | deleted (deleted_count : Nat) (message : String)
  | needsConfirmation (potential_deletes : Nat) (message : String)
      (preview : List Task)
  | ambiguous (error : String) (candidates : List Task)
  | err (error : String)
deriving DecidableEq, Repr

/-- The `deleted_count` key of the result dict (`0` unless a delete
executed). -/
def DeleteResult.deleted_count : DeleteResult → Nat
  | .deleted c _ => c
  | _ => 0

/-- The `requires_confirmation` key of the result dict (absent keys read
falsy). -/
def DeleteResult.requires_confirmation : DeleteResult → Bool
  | .needsConfirmation _ _ _ => true
  | _ => false

/-- Python truthiness of the optional `task_identifier` argument. -/
def strOptTruthy : Option String → Bool
  | some s => s ≠ ""
  | none => false

/-- The tasks matching a bulk-delete criteria for a user (user filter plus
the optional status filter; `olderThan` is only logged). -/
def bulkMatches (db : DB) (user_id : Nat) (crit : BulkCriteria) : List Task :=
  let base := db.tasks.filter (fun t => decide (t.user_id = user_id))
  match crit.status with
  | some s =>
    if s = "completed" then base.filter (fun t => t.is_completed)
    else if s = "pending" then base.filter (fun t => !t.is_completed)
    else base
  | none => base

/-- `_execute_delete_impl`: a truthy single identifier without criteria
resolves and deletes one row; criteria never delete — they return a count and
a preview of the first 10 matches and demand confirmation; neither given is
an error. -/
def execute_delete_impl (db : DB) (user_id : Nat)
    (task_identifier : Option String) (bulk_criteria : Option BulkCriteria) :
    DeleteResult × DB :=
  if strOptTruthy task_identifier && bulk_criteria.isNone then
    let identifier := task_identifier.getD ""
    match resolve_task_impl db user_id identifier with
    | none =>
      let amb := titleMatches db user_id identifier
      if amb.length > 1 then
        (.ambiguous ("Multiple tasks found matching '" ++ identifier ++ "'")
          amb, db)
      else
        (.err ("Task '" ++ identifier ++ "' not found"), db)
    | some t =>
      (.deleted 1 ("Task '" ++ t.title ++ "' deleted successfully"),
       { db with tasks := db.tasks.eraseP (fun x => decide (x.id = t.id)) })
  else
    match bulk_criteria with
    | some crit =>
      let tasks_to_delete := bulkMatches db user_id crit
      let count := tasks_to_delete.length
      (.needsConfirmation count
        (pyStr count ++ " task(s) will be deleted. Please confirm this action.")
        (tasks_to_delete.take 10), db)
    | none =>
      (.err "Either task_identifier or bulk_criteria must be provided", db)

/-! ## Task REST endpoints (src/backend/src/api/tasks.py)

Every endpoint first calls `validate_user_id_match`; result dicts carry the
task row's fields, so the endpoints return the row itself. -/

/-- `order_by(Task.created_at.desc())` (stable sort, newest first; SQL
leaves tie order unspecified, so any stable sort is a faithful model). -/
def sortTasksByCreatedDesc (l : List Task) : List Task :=
  l.insertionSort (fun a b => b.created_at ≤ a.created_at)

/-- `list_tasks`: validates ownership and pagination, then returns the
caller's tasks newest-first with offset `skip` and at most `limit` rows. -/
def list_tasks (db : DB) (user_id : Nat) (skip : Int) (limit : Int)
    (current_user_id : Nat) : Except HttpError (List Task) :=
  match validate_user_id_match user_id current_user_id with
  | .error e => .error e
  | .ok _ =>
    if skip < 0 then .error ⟨400, "Skip parameter must be non-negative"⟩
    else if limit < 1 || limit > 1000 then
      .error ⟨400, "Limit parameter must be between 1 and 1000"⟩
    else
      let sorted := sortTasksByCreatedDesc
        (db.tasks.filter (fun t => decide (t.user_id = user_id)))
      .ok ((sorted.drop skip.toNat).take limit.toNat)

/-- `get_task`: primary-key lookup, 404 when missing or owned by someone
else. -/
def get_task (db : DB) (user_id : Nat) (task_id : Nat)
    (current_user_id : Nat) : Except HttpError Task :=
  match validate_user_id_match user_id current_user_id with
  | .error e => .error e
  | .ok _ =>
    match db.tasks.find? (fun t => decide (t.id = task_id)) with
    | none => .error ⟨404, "Task not found"⟩
    | some t =>
      if t.user_id ≠ user_id then .error ⟨404, "Task not found"⟩ else .ok t

/-- `update_task`: the request's already-validated optional title and
description; provided fields overwrite, `updated_at` is touched. -/
def update_task (db : DB) (user_id : Nat) (task_id : Nat)
    (title description : Option String) (current_user_id : Nat) (now : Nat) :
    Except HttpError (Task × DB) :=
  match validate_user_id_match user_id current_user_id with
  | .error e => .error e
  | .ok _ =>
    match db.tasks.find? (fun t => decide (t.id = task_id)) with
    | none => .error ⟨404, "Task not found"⟩
    | some t =>
      if t.user_id ≠ user_id then .error ⟨404, "Task not found"⟩
      else
        let t1 := match title with | some s => { t with title := s } | none => t
        let t2 := match description with
          | some s => { t1 with description := some s }
          | none => t1
        let t3 := { t2 with updated_at := now }
        .ok (t3, db.replaceTask t3)

/-- `delete_task`: 404 when missing or foreign, else removes the row. -/
def delete_task (db : DB) (user_id : Nat) (task_id : Nat)
    (current_user_id : Nat) : Except HttpError DB :=
  match validate_user_id_match user_id current_user_id with
  | .error e => .error e
  | .ok _ =>
    match db.tasks.find? (fun t => decide (t.id = task_id)) with
    | none => .error ⟨404, "Task not found"⟩
    | some t =>
      if t.user_id ≠ user_id then .error ⟨404, "Task not found"⟩
      else .ok { db with
        tasks := List.eraseP (fun x => decide (x.id = task_id)) db.tasks }

/-- `toggle_complete`: flips `is_completed` and touches `updated_at`. -/
def toggle_complete (db : DB) (user_id : Nat) (task_id : Nat)
    (current_user_id : Nat) (now : Nat) : Except HttpError (Task × DB) :=
  match validate_user_id_match user_id current_user_id with
  | .error e => .error e
  | .ok _ =>
    match db.tasks.find? (fun t => decide (t.id = task_id)) with
    | none => .error ⟨404, "Task not found"⟩
    | some t =>
      if t.user_id ≠ user_id then .error ⟨404, "Task not found"⟩
      else
        let t1 := { t with is_completed := !t.is_completed, updated_at := now }
        .ok (t1, db.replaceTask t1)

/-! ## AI action endpoints (src/backend/src/api/ai_actions.py) -/

/-- The `task` field of a `ConfirmActionResponse`: a task dict, query
results (`format_query_results`, a presentational string, is omitted), or a
delete summary. -/
inductive TaskPayload where
  | taskData (t : Task)
  | queryData (tasks : List Task) (count : Nat)
  | deleteData (deleted_count : Nat) (message : String)
deriving DecidableEq, Repr

/-- `ConfirmActionResponse`. -/
structure ConfirmActionResponse where
  action_id : Nat
  confirmation_status : ConfirmationStatus
  executed_status : ExecutedStatus
  task : Option TaskPayload
  error : Option String
deriving DecidableEq, Repr

/-- `get_pending_actions`: the caller's pending actions, newest first. -/
def get_pending_actions (db : DB) (current_user_id : Nat) : List TaskAction :=
  (db.actions.filter
      (fun a => decide (a.user_id = current_user_id)
        && decide (a.confirmation_status = ConfirmationStatus.pending))).insertionSort
    (fun a b => b.created_at ≤ a.created_at)

/-- The `updates` dict built by the confirm endpoint's UPDATE branch: a key
is set only when the extracted parameter is truthy. -/
def updatesFromParams (p : ExtractedParams) : UpdateFields where
  title := match p.title with
    | some s => if s ≠ "" then some (some s) else none
    | none => none
  description := match p.description with
    | some s => if s ≠ "" then some (some s) else none
    | none => none

/-- Result of the confirm endpoint's inner `try` block: the response
payload, the task id to record on the action (when one is assigned), and the
database after the executed mutation. -/
structure ExecOutcome where
  payload : Option TaskPayload
  new_task_id : Option Nat
  db : DB
deriving Repr

/-- The dispatch on `action_type` inside `confirm_action`'s inner `try`:
`.error` is a raised `ValueError`'s message (caught by the endpoint, which
then marks the action failed). -/
def dispatchAction (db : DB) (current_user_id : Nat) (a : TaskAction)
    (now : Nat) : Except String ExecOutcome :=
  match a.action_type with
  | .create =>
    let title := strip (a.extracted_params.title.getD "")
    let descRaw := strip (a.extracted_params.description.getD "")
    let description := if descRaw = "" then none else some descRaw
    if title = "" then .error "Task title is required"
    else
      let new_task : Task :=
        ⟨db.next_task_id, current_user_id, title, description, false, now, now⟩
      .ok ⟨some (.taskData new_task), some new_task.id,
        { db with tasks := db.tasks ++ [new_task],
                  next_task_id := db.next_task_id + 1 }⟩
  | .query =>
    let filters := a.extracted_params.filters.getD ⟨none, none⟩
    let qr := execute_query_impl db current_user_id filters
    .ok ⟨some (.queryData qr.tasks qr.count), none, db⟩
  | .update =>
    let target := a.extracted_params.target.getD ""
    let updates := updatesFromParams a.extracted_params
    match execute_update_impl db current_user_id target updates now with
    | (.ok t _, db2) => .ok ⟨some (.taskData t), some t.id, db2⟩
    | (.ambiguous e cands, _) =>
      .error (e ++ ". Multiple matches: "
        ++ pyStrListRepr (cands.map (fun t => t.title)))
    | (.err e, _) => .error e
  | .complete =>
    let target := a.extracted_params.target.getD ""
    match execute_complete_impl db current_user_id target now with
    | (.ok t _, db2) => .ok ⟨some (.taskData t), some t.id, db2⟩
    | (.ambiguous e cands, _) =>
      .error (e ++ ". Multiple matches: "
        ++ pyStrListRepr (cands.map (fun t => t.title)))
    | (.err e, _) => .error e
  | .delete =>
    match execute_delete_impl db current_user_id a.extracted_params.target
        a.extracted_params.bulkCriteria with
    | (.needsConfirmation p m _, _) =>
      .error (m ++ " Potential deletes: " ++ pyStr p)
    | (.deleted c m, db2) => .ok ⟨some (.deleteData c m), none, db2⟩
    | (.ambiguous e cands, _) =>
      .error (e ++ ". Multiple matches: "
        ++ pyStrListRepr (cands.map (fun t => t.title)))
    | (.err e, _) => .error e

/-- `confirm_action`: load by id, validate ownership, refuse a non-pending
action, else mark confirmed+executing, dispatch, and record
success or failure on the action row. -/
def confirm_action (db : DB) (action_id : Nat) (current_user_id : Nat)
    (now : Nat) : Except HttpError (ConfirmActionResponse × DB) :=
  match db.actions.find? (fun a => decide (a.id = action_id)) with
  | none => .error ⟨404, "Action not found"⟩
  | some ta =>
    match validate_user_id_match ta.user_id current_user_id with
    | .error e => .error e
    | .ok _ =>
      if ta.confirmation_status ≠ ConfirmationStatus.pending then
        .error ⟨400, "Action already " ++ ta.confirmation_status.value⟩
      else
        let ta1 := { ta with
          confirmation_status := ConfirmationStatus.confirmed,
          confirmed_at := some now,
          executed_status := ExecutedStatus.executing }
        let db1 := db.replaceAction ta1
        match dispatchAction db1 current_user_id ta1 now with
        | .ok out =>
          let ta2 := { ta1 with
            executed_status := ExecutedStatus.success,
            executed_at := some now,
            task_id := match out.new_task_id with
              | some i => some i
              | none => ta1.task_id }
          .ok (⟨ta2.id, ta2.confirmation_status, ta2.executed_status,
                out.payload, none⟩,
               out.db.replaceAction ta2)
        | .error e =>
          let ta2 := { ta1 with
            executed_status := ExecutedStatus.failed,
            error_message := some e,
            executed_at := some now }
          .ok (⟨ta2.id, ta2.confirmation_status, ta2.executed_status,
                none, some e⟩,
               db1.replaceAction ta2)

/-- `reject_action`: load by id, validate ownership, refuse a non-pending
action, else mark rejected without executing anything. -/
def reject_action (db : DB) (action_id : Nat) (current_user_id : Nat)
    (now : Nat) : Except HttpError (ConfirmActionResponse × DB) :=
  match db.actions.find? (fun a => decide (a.id = action_id)) with
  | none => .error ⟨404, "Action not found"⟩
  | some ta =>
    match validate_user_id_match ta.user_id current_user_id with
    | .error e => .error e
    | .ok _ =>
      if ta.confirmation_status ≠ ConfirmationStatus.pending then
        .error ⟨400, "Action already " ++ ta.confirmation_status.value⟩
      else
        let ta1 := { ta with
          confirmation_status := ConfirmationStatus.rejected,
          confirmed_at := some now }
        .ok (⟨ta1.id, ta1.confirmation_status, ta1.executed_status,
              none, none⟩,
             db.replaceAction ta1)

/-! ## NLP extraction adapter (src/backend/src/services/ai/nlp_service.py)

Only the error path is embedded: the claims quantify over extraction
failures.  The `isinstance` chain in `handle_extraction_error` classifies the
caught exception; the outcome of that chain is the inductive below. -/

/-- The exception classes `handle_extraction_error` distinguishes: openai's
`APIConnectionError`, `APITimeoutError`, `RateLimitError`, other `APIError`s,
`json.JSONDecodeError`, and anything else. -/
inductive ExtractionError where
  | apiConnection
  | apiTimeout
  | rateLimited
  | apiError
  | jsonDecode
  | unexpected
deriving DecidableEq, Repr

/-- An element of the `tasks` list of an extraction result (the keys
`validate_extracted_params` reads). -/
structure NlpTask where
  title : Option String
  description : Option String
  dueDate : Option String
  priority : Option String
  actionType : Option String
deriving DecidableEq, Repr

/-- The dict returned by `extract_task_params` /
`handle_extraction_error`; keys only the error path writes are `Option`s. -/
structure ExtractionResult where
  success : Option Bool
  error : Option String
  fallback_message : Option String
  should_use_traditional_form : Option Bool
  tasks : List NlpTask
  confidence : ℚ
  clarification_needed : Bool
  ambiguous_fields : List String
deriving DecidableEq, Repr

/-- `handle_extraction_error`: classifies the exception and returns the
structured fallback dict; `extract_task_params` returns this value directly
from its `except` clause, so no failure propagates to the caller. -/
def handle_extraction_error (e : ExtractionError) (user_input : String) :
    ExtractionResult :=
  let triple : String × String × Bool :=
    match e with
    | .apiConnection =>
      ("connection_error",
       "I'm having trouble connecting to the AI service. Please try again in a moment, or use the traditional form to create your task.",
       true)
    | .apiTimeout =>
      ("timeout_error",
       "The AI service is taking too long to respond. Please try again, or use the traditional form.",
       true)
    | .rateLimited =>
      ("rate_limit_error",
       "You've reached your AI request limit for now. Please try again later, or use the traditional form.",
       true)
    | .apiError =>
      ("api_error",
       "The AI service encountered an error. Please try again, or use the traditional form.",
       true)
    | .jsonDecode =>
      ("json_parse_error",
       "I had trouble understanding the AI response. Could you rephrase your request?",
       false)
    | .unexpected =>
      ("unknown_error",
       "An unexpected error occurred. Please try again or use the traditional form.",
       true)
  let _ := user_input
  { success := some false
    error := some triple.1
    fallback_message := some triple.2.1
    should_use_traditional_form := some triple.2.2
    tasks := []
    confidence := 0
    clarification_needed := false
    ambiguous_fields := [] }

/-! ## Console to-do app (src/console-app)

`Todo` (models/todo.py) with its validators, and `save_state`/`load_state`
(lib/storage.py) over an explicit JSON tree.  Python `datetime` values are
integer timestamps rendered decimally (`isoformat`/`fromisoformat` become
`pyStr`/`pyInt`); any exception Python raises while loading is modelled as
`none`. -/

/-- The `status` literal of a console `Todo`. -/
inductive TStatus where
  | pending
  | complete
deriving DecidableEq, Repr

/-- The status string stored in the JSON file. -/
def TStatus.str : TStatus → String
  | .pending => "pending"
  | .complete => "complete"

/-- A console `Todo` record. -/
structure Todo where
  id : Nat
  title : String
  description : Option String
  status : TStatus
  created_at : Nat
deriving DecidableEq, Repr

/-- `TodoManager` state: the id counter and the insertion-ordered dict of
todos (a Python dict iterates in insertion order). -/
structure TodoManager where
  next_id : Nat
  todos : List (Nat × Todo)
deriving DecidableEq, Repr

/-- A JSON value as written/read by `json.dump`/`json.load` (only the shapes
the storage file uses). -/
inductive JValue where
  | jnull
  | jnum (n : Nat)
  | jstr (s : String)
  | jobj (fields : List (String × JValue))

/-- `datetime.isoformat` under the integer-timestamp model. -/
def isoformat (t : Nat) : String := pyStr t

/-- `datetime.fromisoformat` under the integer-timestamp model. -/
def datetime_fromisoformat (s : String) : Option Nat := pyInt s

/-- `Todo.validate_title`: refuse empty/whitespace-only, strip, cap at 500
characters. -/
def validate_title (title : String) : Option String :=
  if strip title = "" then none
  else
    let normalized := strip title
    if normalized.length > 500 then none else some normalized

/-- `Todo.validate_description`: `None` passes, otherwise cap at 2000
characters. -/
def validate_description : Option String → Option (Option String)
  | none => some none
  | some d => if d.length > 2000 then none else some (some d)

/-- `Todo.validate_status`. -/
def validate_status (s : String) : Option TStatus :=
  if s = "pending" then some TStatus.pending
  else if s = "complete" then some TStatus.complete
  else none

/-- The JSON object `save_state` writes for one todo. -/
def todoToJson (t : Todo) : JValue :=
  .jobj [("id", .jnum t.id),
         ("title", .jstr t.title),
         ("description", match t.description with
           | some d => .jstr d
           | none => .jnull),
         ("status", .jstr t.status.str),
         ("created_at", .jstr (isoformat t.created_at))]

/-- `save_state`: the full storage-file JSON tree
`{next_id, todos: {str(id): {...}}}`. -/
def save_state (m : TodoManager) : JValue :=
  .jobj [("next_id", .jnum m.next_id),
         ("todos", .jobj (m.todos.map (fun kv => (pyStr kv.1, todoToJson kv.2))))]

/-- Key lookup in a JSON object (`state["key"]`; a missing key raises, which
the caller models as `none`). -/
def jlookup (fields : List (String × JValue)) (k : String) : Option JValue :=
  (fields.find? (fun kv => decide (kv.1 = k))).map (fun kv => kv.2)

/-- Reconstruction of one `Todo` from its JSON object, running the model's
validators as `Todo.__post_init__` does; `none` models a raised
`KeyError`/`ValueError`. -/
def loadTodo (v : JValue) : Option Todo :=
  match v with
  | .jobj tf =>
    match jlookup tf "id", jlookup tf "title", jlookup tf "description",
        jlookup tf "status", jlookup tf "created_at" with
    | some (.jnum i), some (.jstr ti), some dv, some (.jstr st),
        some (.jstr ca) =>
      let desc : Option (Option String) :=
        match dv with
        | .jnull => some none
        | .jstr d => some (some d)
        | _ => none
      match desc with
      | none => none
      | some d0 =>
        match validate_title ti, validate_description d0,
            validate_status st, datetime_fromisoformat ca with
        | some vt, some vd, some vs, some vc => some ⟨i, vt, vd, vs, vc⟩
        | _, _, _, _ => none
    | _, _, _, _, _ => none
  | _ => none

/-- One entry of the `todos` dict: the string key parsed back with `int`,
the value reconstructed as a `Todo`. -/
def loadEntry (kv : String × JValue) : Option (Nat × Todo) :=
  match pyInt kv.1, loadTodo kv.2 with
  | some k, some t => some (k, t)
  | _, _ => none

/-- `load_state`: reads `next_id` and every todo entry back; `none` models
the `except (json.JSONDecodeError, KeyError, ValueError)` path. -/
def load_state (j : JValue) : Option TodoManager :=
  match j with
  | .jobj fields =>
    match jlookup fields "next_id", jlookup fields "todos" with
    | some (.jnum nid), some (.jobj todoFields) =>
      match todoFields.mapM loadEntry with
      | some entries => some ⟨nid, entries⟩
      | none => none
    | _, _ => none
  | _ => none

/-- The model's validation rules for a stored `Todo` (every todo built
through `Todo.__post_init__` satisfies them: the title is stripped,
non-empty and at most 500 characters, the description at most 2000). -/
def ValidTodo (t : Todo) : Prop :=
  strip t.title = t.title ∧ t.title ≠ "" ∧ t.title.length ≤ 500
    ∧ (t.description.getD "").length ≤ 2000

instance (t : Todo) : Decidable (ValidTodo t) := by
  unfold ValidTodo
  infer_instance

/-! ## Claim theorems -/

set_option maxRecDepth 8192 in
/-- C7: for every classified extraction failure (connection, timeout, rate
limit, other API error, JSON parse error, anything else) and every user
input, the adapter's error handler — returned directly by
`extract_task_params`'s `except` clause, so nothing propagates to the
caller — produces a structured fallback with `success=False`, an empty task
list, confidence `0`, a non-empty human-readable fallback message, and the
boolean `should_use_traditional_form` flag (set, and true for every failure
class except a JSON parse error). -/
theorem c7_nlp_extraction_fails_soft (e : ExtractionError) (input : String) :
    (handle_extraction_error e input).success = some false
      ∧ (handle_extraction_error e input).tasks = []
      ∧ (handle_extraction_error e input).confidence = 0
      ∧ ((handle_extraction_error e input).fallback_message.getD "").isEmpty
          = false
      ∧ (handle_extraction_error e input).should_use_traditional_form
          = some (decide (e ≠ ExtractionError.jsonDecode))
      ∧ (handle_extraction_error e input).clarification_needed = false
      ∧ (handle_extraction_error e input).ambiguous_fields = [] := by
  cases e <;> exact ⟨rfl, rfl, rfl, rfl, rfl, rfl, rfl⟩

/-- C2: a delete execution given bulk criteria and no single task identifier
never deletes: it returns the bulk preview result — `requires_confirmation =
true`, `deleted_count = 0`, the count of matching rows and a preview of the
first 10 matches — and leaves the database (in particular the tasks table)
unchanged, however many rows match. -/
theorem c2_bulk_delete_never_deletes_on_first_call (db : DB) (user_id : Nat)
    (crit : BulkCriteria) :
    (execute_delete_impl db user_id none (some crit)).1
        = DeleteResult.needsConfirmation (bulkMatches db user_id crit).length
            (pyStr (bulkMatches db user_id crit).length
              ++ " task(s) will be deleted. Please confirm this action.")
            ((bulkMatches db user_id crit).take 10)
      ∧ (execute_delete_impl db user_id none (some crit)).1.deleted_count = 0
      ∧ (execute_delete_impl db user_id none
          (some crit)).1.requires_confirmation = true
      ∧ (execute_delete_impl db user_id none (some crit)).2 = db :=
  ⟨rfl, rfl, rfl, rfl⟩

/-- C3: confirming an action whose confirmation status is no longer pending
fails with status 400 and a detail reporting the current status, and so does
rejecting it; in both cases the handler returns before any mutation (an
`Except.error` reply carries no modified database, so the action row is
untouched). -/
theorem c3_non_pending_action_conflicts (db : DB) (action_id : Nat)
    (current now : Nat) (ta : TaskAction)
    (hfind : db.actions.find? (fun a => decide (a.id = action_id)) = some ta)
    (howner : ta.user_id = current)
    (hstatus : ta.confirmation_status ≠ ConfirmationStatus.pending) :
    confirm_action db action_id current now
        = .error ⟨400, "Action already " ++ ta.confirmation_status.value⟩
      ∧ reject_action db action_id current now
        = .error ⟨400, "Action already " ++ ta.confirmation_status.value⟩ := by
  have hval : validate_user_id_match ta.user_id current = .ok () := by
    unfold validate_user_id_match
    rw [if_neg (by simp [howner])]
  constructor
  · unfold confirm_action
    rw [hfind]
    simp only [hval, if_pos hstatus]
  · unfold reject_action
    rw [hfind]
    simp only [hval, if_pos hstatus]

/-- Witness for C3 at a concrete database holding one already-confirmed
action owned by the caller. -/
theorem c3_non_pending_action_conflicts_witness :
    confirm_action
        ⟨[], [⟨4, 9, ActionType.create, ⟨some "t", none, none, none, none⟩,
              ConfirmationStatus.confirmed, ExecutedStatus.success, none,
              none, 5, some 6, some 6⟩], 1⟩
        4 9 10
      = .error ⟨400, "Action already confirmed"⟩ :=
  (c3_non_pending_action_conflicts
    ⟨[], [⟨4, 9, ActionType.create, ⟨some "t", none, none, none, none⟩,
          ConfirmationStatus.confirmed, ExecutedStatus.success, none,
          none, 5, some 6, some 6⟩], 1⟩
    4 9 10
    ⟨4, 9, ActionType.create, ⟨some "t", none, none, none, none⟩,
     ConfirmationStatus.confirmed, ExecutedStatus.success, none,
     none, 5, some 6, some 6⟩
    (by decide) (by decide) (by decide)).1

theorem loadTodo_todoToJson (t : Todo) (h : ValidTodo t) :
    loadTodo (todoToJson t) = some t := by
  obtain ⟨i, ti, d, st, ca⟩ := t
  obtain ⟨hstrip, hne, hlen, hdesc⟩ := h
  replace hstrip : strip ti = ti := hstrip
  replace hne : ti ≠ "" := hne
  replace hlen : ti.length ≤ 500 := hlen
  have htitle : validate_title ti = some ti := by
    unfold validate_title
    rw [hstrip, if_neg hne, if_neg (by omega)]
  have hstatus2 : validate_status (TStatus.str st) = some st := by
    cases st <;> rfl
  have hcreated : datetime_fromisoformat (isoformat ca) = some ca :=
    pyInt_pyStr ca
  cases d with
  | none =>
    show (match validate_title ti, validate_description none,
        validate_status (TStatus.str st),
        datetime_fromisoformat (isoformat ca) with
      | some vt, some vd, some vs, some vc =>
        some (⟨i, vt, vd, vs, vc⟩ : Todo)
      | _, _, _, _ => none) = some ⟨i, ti, none, st, ca⟩
    rw [htitle, hstatus2, hcreated]
    rfl
  | some dsc =>
    replace hdesc : dsc.length ≤ 2000 := hdesc
    have hd : validate_description (some dsc) = some (some dsc) := by
      show (if dsc.length > 2000 then none else some (some dsc))
        = some (some dsc)
      rw [if_neg (by omega)]
    show (match validate_title ti, validate_description (some dsc),
        validate_status (TStatus.str st),
        datetime_fromisoformat (isoformat ca) with
      | some vt, some vd, some vs, some vc =>
        some (⟨i, vt, vd, vs, vc⟩ : Todo)
      | _, _, _, _ => none) = some ⟨i, ti, some dsc, st, ca⟩
    rw [htitle, hstatus2, hcreated, hd]

theorem loadEntry_saved (kv : Nat × Todo) (h : ValidTodo kv.2) :
    loadEntry (pyStr kv.1, todoToJson kv.2) = some kv := by
  unfold loadEntry
  rw [show (pyStr kv.1, todoToJson kv.2).1 = pyStr kv.1 from rfl]
  rw [pyInt_pyStr kv.1, loadTodo_todoToJson kv.2 h]

theorem mapM_loadEntry_saved (l : List (Nat × Todo))
    (h : ∀ kv ∈ l, ValidTodo kv.2) :
    (l.map (fun kv => (pyStr kv.1, todoToJson kv.2))).mapM loadEntry
      = some l := by
  induction l with
  | nil => rfl
  | cons kv l ih =>
    rw [List.map_cons, List.mapM_cons,
      loadEntry_saved kv (h kv (List.mem_cons_self _ _)),
      ih (fun x hx => h x (List.mem_cons_of_mem _ hx))]
    rfl

/-- C9: console-app persistence round trip — for every `TodoManager` state
whose todos satisfy the model's validation rules, saving to the JSON file
and loading back reproduces the same `next_id` and the same id-to-todo
mapping, every field included. -/
theorem c9_console_storage_roundtrip (m : TodoManager)
    (hvalid : ∀ kv ∈ m.todos, ValidTodo kv.2) :
    load_state (save_state m) = some m := by
  have hstep : load_state (save_state m) =
      match (m.todos.map (fun kv => (pyStr kv.1, todoToJson kv.2))).mapM
          loadEntry with
      | some entries => some ⟨m.next_id, entries⟩
      | none => none := rfl
  rw [hstep, mapM_loadEntry_saved m.todos hvalid]

/-- Witness for C9 at a concrete two-todo manager state. -/
theorem c9_console_storage_roundtrip_witness :
    load_state (save_state
        ⟨3, [(1, ⟨1, "Buy milk", some "2 litres", TStatus.pending, 55⟩),
             (2, ⟨2, "Call Bob", none, TStatus.complete, 60⟩)]⟩)
      = some ⟨3, [(1, ⟨1, "Buy milk", some "2 litres", TStatus.pending, 55⟩),
                  (2, ⟨2, "Call Bob", none, TStatus.complete, 60⟩)]⟩ :=
  c9_console_storage_roundtrip
    ⟨3, [(1, ⟨1, "Buy milk", some "2 litres", TStatus.pending, 55⟩),
         (2, ⟨2, "Call Bob", none, TStatus.complete, 60⟩)]⟩
    (by decide)

/-! ## List lemmas about row replacement and deletion -/

theorem task_id_inj {l : List Task} (hnodup : (l.map Task.id).Nodup)
    {x y : Task} (hx : x ∈ l) (hy : y ∈ l) (h : x.id = y.id) : x = y :=
  List.inj_on_of_nodup_map hnodup hx hy h

theorem map_replaceFun_eq_self {l : List Task} {t1 : Task}
    (h : ∀ x ∈ l, x.id ≠ t1.id) :
    l.map (fun x => if x.id = t1.id then t1 else x) = l := by
  induction l with
  | nil => rfl
  | cons x xs ih =>
    rw [List.map_cons, if_neg (h x (List.mem_cons_self _ _)),
      ih (fun y hy => h y (List.mem_cons_of_mem _ hy))]

theorem not_id_mem_tail {x : Task} {xs : List Task} {t1 : Task}
    (hnodup : ((x :: xs).map Task.id).Nodup) (hx : x.id = t1.id) :
    ∀ y ∈ xs, y.id ≠ t1.id := by
  intro y hy hcon
  rw [List.map_cons, List.nodup_cons] at hnodup
  exact hnodup.1 (hx ▸ hcon ▸ List.mem_map_of_mem Task.id hy)

theorem filter_replaceTaskRow (l : List Task) (t1 : Task) (p : Task → Bool)
    (hnodup : (l.map Task.id).Nodup)
    (h : ∀ x ∈ l, x.id = t1.id → p x = p t1) :
    (replaceTaskRow l t1).filter p
      = (l.filter p).map (fun x => if x.id = t1.id then t1 else x) := by
  induction l with
  | nil => rfl
  | cons x xs ih =>
    have hstep : replaceTaskRow (x :: xs) t1
        = if x.id = t1.id then t1 :: xs else x :: replaceTaskRow xs t1 := rfl
    rw [hstep]
    by_cases hx : x.id = t1.id
    · have hxs := not_id_mem_tail hnodup hx
      have hmapfix : (xs.filter p).map
          (fun y => if y.id = t1.id then t1 else y) = xs.filter p :=
        map_replaceFun_eq_self (fun y hy => hxs y (List.mem_of_mem_filter hy))
      have hpx : p x = p t1 := h x (List.mem_cons_self _ _) hx
      rw [if_pos hx]
      cases hpt : p t1 with
      | true => simp [List.filter_cons, hpx, hpt, hx, hmapfix]
      | false => simp [List.filter_cons, hpx, hpt, hmapfix]
    · have hnd : (xs.map Task.id).Nodup := by
        rw [List.map_cons, List.nodup_cons] at hnodup
        exact hnodup.2
      have ih2 := ih hnd (fun y hy => h y (List.mem_cons_of_mem _ hy))
      rw [if_neg hx]
      cases hpx : p x with
      | true => simp [List.filter_cons, hpx, hx, ih2]
      | false => simp [List.filter_cons, hpx, ih2]

theorem find?_map_replaceFun_eq_self {xs : List Task} {t1 : Task}
    (p : Task → Bool) (hxs : ∀ y ∈ xs, y.id ≠ t1.id) :
    (xs.find? p).map (fun y => if y.id = t1.id then t1 else y)
      = xs.find? p := by
  cases hf : xs.find? p with
  | none => rfl
  | some y =>
    have hy : y ∈ xs := List.mem_of_find?_eq_some hf
    show some (if y.id = t1.id then t1 else y) = some y
    rw [if_neg (hxs y hy)]

theorem find?_replaceTaskRow (l : List Task) (t1 : Task) (p : Task → Bool)
    (hnodup : (l.map Task.id).Nodup)
    (h : ∀ x ∈ l, x.id = t1.id → p x = p t1) :
    (replaceTaskRow l t1).find? p
      = (l.find? p).map (fun x => if x.id = t1.id then t1 else x) := by
  induction l with
  | nil => rfl
  | cons x xs ih =>
    have hstep : replaceTaskRow (x :: xs) t1
        = if x.id = t1.id then t1 :: xs else x :: replaceTaskRow xs t1 := rfl
    rw [hstep]
    by_cases hx : x.id = t1.id
    · have hxs := not_id_mem_tail hnodup hx
      have hfix := find?_map_replaceFun_eq_self p hxs
      have hpx : p x = p t1 := h x (List.mem_cons_self _ _) hx
      rw [if_pos hx]
      cases hpt : p t1 with
      | true => simp [List.find?_cons, hpx, hpt, hx]
      | false => simp [List.find?_cons, hpx, hpt, hfix]
    · have hnd : (xs.map Task.id).Nodup := by
        rw [List.map_cons, List.nodup_cons] at hnodup
        exact hnodup.2
      have ih2 := ih hnd (fun y hy => h y (List.mem_cons_of_mem _ hy))
      rw [if_neg hx]
      cases hpx : p x with
      | true => simp [List.find?_cons, hpx, hx]
      | false => simp [List.find?_cons, hpx, ih2]

theorem filter_replaceTaskRow_frame (l : List Task) (t1 : Task)
    (p : Task → Bool) (hnodup : (l.map Task.id).Nodup)
    (h : ∀ x ∈ l, x.id = t1.id → p x = false) (hp1 : p t1 = false) :
    (replaceTaskRow l t1).filter p = l.filter p := by
  rw [filter_replaceTaskRow l t1 p hnodup
    (fun x hx hid => by rw [h x hx hid, hp1])]
  apply map_replaceFun_eq_self
  intro y hy hcon
  have hpy : p y = true := List.of_mem_filter hy
  have hpy2 : p y = false := h y (List.mem_of_mem_filter hy) hcon
  rw [hpy] at hpy2
  exact absurd hpy2 (by decide)

theorem filter_eraseP_of_pred_false (l : List Task) (tid : Nat)
    (p : Task → Bool) (h : ∀ x ∈ l, x.id = tid → p x = false) :
    (List.eraseP (fun x => decide (x.id = tid)) l).filter p = l.filter p := by
  induction l with
  | nil => rfl
  | cons x xs ih =>
    rw [List.eraseP_cons]
    by_cases hx : x.id = tid
    · have : (decide (x.id = tid)) = true := by rw [hx]; exact decide_eq_true rfl
      rw [this]
      show xs.filter p = (x :: xs).filter p
      rw [List.filter_cons, h x (List.mem_cons_self _ _) hx]
      rfl
    · have : (decide (x.id = tid)) = false := by
        exact decide_eq_false hx
      rw [this]
      show (x :: List.eraseP (fun y => decide (y.id = tid)) xs).filter p
        = (x :: xs).filter p
      rw [List.filter_cons, List.filter_cons,
        ih (fun y hy => h y (List.mem_cons_of_mem _ hy))]

/-- C6: task-identifier resolution tries a numeric id lookup first; when that
misses, a case-insensitive substring match on the user's task titles decides:
zero matches makes the update operation report not-found, exactly one match
resolves and the operation proceeds, and several matches make it report
ambiguity together with the candidate list. -/
theorem c6_identifier_resolution (db : DB) (user_id : Nat)
    (identifier : String) (updates : UpdateFields) (now : Nat) :
    (∀ t, numericLookup db user_id identifier = some t →
        resolve_task_impl db user_id identifier = some t)
      ∧ (numericLookup db user_id identifier = none →
          ((titleMatches db user_id identifier = [] →
              resolve_task_impl db user_id identifier = none
                ∧ (execute_update_impl db user_id identifier updates now).1
                    = TaskOpResult.err
                        ("Task '" ++ identifier ++ "' not found"))
            ∧ (∀ t, titleMatches db user_id identifier = [t] →
                resolve_task_impl db user_id identifier = some t
                  ∧ (execute_update_impl db user_id identifier
                        updates now).1
                      = TaskOpResult.ok (applyUpdates t updates now)
                          ("Task '" ++ (applyUpdates t updates now).title
                            ++ "' updated successfully"))
            ∧ (1 < (titleMatches db user_id identifier).length →
                resolve_task_impl db user_id identifier = none
                  ∧ (execute_update_impl db user_id identifier
                        updates now).1
                      = TaskOpResult.ambiguous
                          ("Multiple tasks found matching '"
                            ++ identifier ++ "'")
                          (titleMatches db user_id identifier)))) := by
  constructor
  · intro t ht
    unfold resolve_task_impl
    rw [ht]
  · intro hn
    have hres : resolve_task_impl db user_id identifier
        = (if (titleMatches db user_id identifier).length = 1
            then (titleMatches db user_id identifier).head? else none) := by
      unfold resolve_task_impl
      rw [hn]
    refine ⟨?_, ?_, ?_⟩
    · intro hempty
      have h0 : resolve_task_impl db user_id identifier = none := by
        rw [hres, hempty]
        rfl
      refine ⟨h0, ?_⟩
      have hupd : execute_update_impl db user_id identifier updates now
          = (TaskOpResult.err ("Task '" ++ identifier ++ "' not found"),
             db) := by
        unfold execute_update_impl
        rw [h0, hempty]
        rfl
      rw [hupd]
    · intro t hone
      have h1 : resolve_task_impl db user_id identifier = some t := by
        rw [hres, hone]
        rfl
      refine ⟨h1, ?_⟩
      have hupd : execute_update_impl db user_id identifier updates now
          = (TaskOpResult.ok (applyUpdates t updates now)
              ("Task '" ++ (applyUpdates t updates now).title
                ++ "' updated successfully"),
             db.replaceTask (applyUpdates t updates now)) := by
        unfold execute_update_impl
        rw [h1]
      rw [hupd]
      try rfl
    · intro hgt
      have hne1 : ¬(titleMatches db user_id identifier).length = 1 := by
        omega
      have h0 : resolve_task_impl db user_id identifier = none := by
        rw [hres, if_neg hne1]
      refine ⟨h0, ?_⟩
      have hupd : execute_update_impl db user_id identifier updates now
          = (TaskOpResult.ambiguous
              ("Multiple tasks found matching '" ++ identifier ++ "'")
              (titleMatches db user_id identifier), db) := by
        unfold execute_update_impl
        simp only [h0]
        rw [if_pos hgt]
      rw [hupd]

/-- Witness for C6: user 1 owns "Buy milk" and "Buy tea"; the identifier
"buy" is non-numeric and matches both, so resolution reports ambiguity with
both candidates. -/
theorem c6_identifier_resolution_witness :
    resolve_task_impl
        ⟨[⟨1, 1, "Buy milk", none, false, 5, 5⟩,
          ⟨2, 1, "Buy tea", none, false, 6, 6⟩], [], 3⟩ 1 "buy" = none
      ∧ (execute_update_impl
          ⟨[⟨1, 1, "Buy milk", none, false, 5, 5⟩,
            ⟨2, 1, "Buy tea", none, false, 6, 6⟩], [], 3⟩ 1 "buy"
          ⟨none, none⟩ 9).1
        = TaskOpResult.ambiguous
            ("Multiple tasks found matching '" ++ "buy" ++ "'")
            (titleMatches
              ⟨[⟨1, 1, "Buy milk", none, false, 5, 5⟩,
                ⟨2, 1, "Buy tea", none, false, 6, 6⟩], [], 3⟩ 1 "buy") :=
  ((c6_identifier_resolution
      ⟨[⟨1, 1, "Buy milk", none, false, 5, 5⟩,
        ⟨2, 1, "Buy tea", none, false, 6, 6⟩], [], 3⟩ 1 "buy"
      ⟨none, none⟩ 9).2 (by decide)).2.2 (by decide)

theorem singleton_of_length_one_head? {l : List Task} {t : Task}
    (hl : l.length = 1) (hh : l.head? = some t) : l = [t] := by
  match l, hl with
  | [x], _ =>
    injection hh with hh
    rw [hh]

theorem resolve_task_impl_mem (db : DB) (u : Nat) (ident : String) (t : Task)
    (h : resolve_task_impl db u ident = some t) :
    t ∈ db.tasks ∧ t.user_id = u := by
  unfold resolve_task_impl at h
  cases hn : numericLookup db u ident with
  | some t0 =>
    rw [hn] at h
    injection h with h
    subst h
    unfold numericLookup at hn
    cases hp : pyInt ident with
    | none =>
      rw [hp] at hn
      exact absurd hn (by simp)
    | some tid =>
      rw [hp] at hn
      refine ⟨List.mem_of_find?_eq_some hn, ?_⟩
      have hpred := List.find?_some hn
      rw [Bool.and_eq_true, decide_eq_true_eq, decide_eq_true_eq] at hpred
      exact hpred.2
  | none =>
    rw [hn] at h
    by_cases hl : (titleMatches db u ident).length = 1
    · rw [if_pos hl] at h
      have hsing := singleton_of_length_one_head? hl h
      have hmem : t ∈ titleMatches db u ident := by
        rw [hsing]
        exact List.mem_cons_self _ _
      have hpred := List.of_mem_filter hmem
      rw [Bool.and_eq_true, decide_eq_true_eq] at hpred
      exact ⟨List.mem_of_mem_filter hmem, hpred.1⟩
    · rw [if_neg hl] at h
      exact absurd h (by simp)

theorem titleMatches_replace (db : DB) (u : Nat) (ident : String)
    (t t1 : Task) (hnodup : (db.tasks.map Task.id).Nodup)
    (hmem : t ∈ db.tasks) (hid : t1.id = t.id)
    (huser : t1.user_id = t.user_id) (htitle : t1.title = t.title) :
    titleMatches (db.replaceTask t1) u ident
      = (titleMatches db u ident).map
          (fun x => if x.id = t1.id then t1 else x) := by
  unfold titleMatches
  show (replaceTaskRow db.tasks t1).filter _ = _
  apply filter_replaceTaskRow db.tasks t1 _ hnodup
  intro x hx hxid
  have hxt : x = t := task_id_inj hnodup hx hmem (by rw [hxid, hid])
  rw [hxt, huser, htitle]

theorem resolve_task_impl_stable (db : DB) (u : Nat) (ident : String)
    (t t1 : Task) (hnodup : (db.tasks.map Task.id).Nodup)
    (hres : resolve_task_impl db u ident = some t)
    (hid : t1.id = t.id) (huser : t1.user_id = t.user_id)
    (htitle : t1.title = t.title) :
    resolve_task_impl (db.replaceTask t1) u ident = some t1 := by
  obtain ⟨hmem, howner⟩ := resolve_task_impl_mem db u ident t hres
  have hidt : t.id = t1.id := hid.symm
  have hmatches := titleMatches_replace db u ident t t1 hnodup hmem hid
    huser htitle
  unfold resolve_task_impl at hres ⊢
  cases hp : pyInt ident with
  | none =>
    have hn : numericLookup db u ident = none := by
      unfold numericLookup
      rw [hp]
    have hn2 : numericLookup (db.replaceTask t1) u ident = none := by
      unfold numericLookup
      rw [hp]
    rw [hn] at hres
    rw [hn2, hmatches]
    by_cases hl : (titleMatches db u ident).length = 1
    · rw [if_pos hl] at hres
      have hsing := singleton_of_length_one_head? hl hres
      rw [hsing]
      show (if ([t].map fun x => if x.id = t1.id then t1 else x).length = 1
        then ([t].map fun x => if x.id = t1.id then t1 else x).head?
        else none) = some t1
      simp [hidt]
    · rw [if_neg hl] at hres
      exact absurd hres (by simp)
  | some tid =>
    have hpredeq : ∀ x ∈ db.tasks, x.id = t1.id →
        (decide (x.id = tid) && decide (x.user_id = u))
          = (decide (t1.id = tid) && decide (t1.user_id = u)) := by
      intro x hx hxid
      have hxt : x = t := task_id_inj hnodup hx hmem (by rw [hxid, hid])
      rw [hxt, hid, huser]
    have hfind := find?_replaceTaskRow db.tasks t1
      (fun x => decide (x.id = tid) && decide (x.user_id = u)) hnodup hpredeq
    have hn : numericLookup db u ident
        = db.tasks.find?
            (fun x => decide (x.id = tid) && decide (x.user_id = u)) := by
      unfold numericLookup
      rw [hp]
    have hn2 : numericLookup (db.replaceTask t1) u ident
        = (replaceTaskRow db.tasks t1).find?
            (fun x => decide (x.id = tid) && decide (x.user_id = u)) := by
      unfold numericLookup
      rw [hp]
      rfl
    cases hnl : db.tasks.find?
        (fun x => decide (x.id = tid) && decide (x.user_id = u)) with
    | some t0 =>
      rw [hn, hnl] at hres
      have ht0 : t0 = t := by
        injection hres
      subst ht0
      rw [hn2, hfind, hnl]
      show (match some (if t0.id = t1.id then t1 else t0) with
        | some t => some t
        | none =>
          if (titleMatches (db.replaceTask t1) u ident).length = 1
          then (titleMatches (db.replaceTask t1) u ident).head? else none)
        = some t1
      rw [if_pos hidt]
    | none =>
      rw [hn, hnl] at hres
      rw [hn2, hfind, hnl]
      show (if (titleMatches (db.replaceTask t1) u ident).length = 1
        then (titleMatches (db.replaceTask t1) u ident).head? else none)
        = some t1
      rw [hmatches]
      by_cases hl : (titleMatches db u ident).length = 1
      · rw [if_pos hl] at hres
        have hsing := singleton_of_length_one_head? hl hres
        rw [hsing]
        simp [hidt]
      · rw [if_neg hl] at hres
        exact absurd hres (by simp)

/-- A successful `toggle_complete` call: the found, owned task gets its
`is_completed` negated and `updated_at` touched, and the row is replaced. -/
theorem toggle_complete_ok (db : DB) (user_id task_id now : Nat) (t : Task)
    (hfind : db.tasks.find? (fun x => decide (x.id = task_id)) = some t)
    (howner : t.user_id = user_id) :
    toggle_complete db user_id task_id user_id now
      = .ok ({ t with is_completed := !t.is_completed, updated_at := now },
          db.replaceTask
            { t with is_completed := !t.is_completed, updated_at := now }) := by
  have hval : validate_user_id_match user_id user_id = .ok () := by
    unfold validate_user_id_match
    rw [if_neg (by simp)]
  unfold toggle_complete
  simp only [hval, hfind]
  rw [if_neg (by simp [howner])]

/-- C10 (implicit): the complete operation is a toggle, not a set-to-true.
Both the AI execute-complete path and the REST completion endpoint negate
`is_completed` on the resolved task, so completing an already-completed task
marks it incomplete, and performing the operation twice restores the
original completion status. -/
theorem c10_complete_is_toggle (db : DB) (user_id task_id now now2 : Nat)
    (t : Task) (ident : String)
    (hnodup : (db.tasks.map Task.id).Nodup)
    (hfind : db.tasks.find? (fun x => decide (x.id = task_id)) = some t)
    (howner : t.user_id = user_id)
    (hres : resolve_task_impl db user_id ident = some t) :
    toggle_complete db user_id task_id user_id now
        = .ok ({ t with is_completed := !t.is_completed, updated_at := now },
            db.replaceTask
              { t with is_completed := !t.is_completed, updated_at := now })
      ∧ toggle_complete
            (db.replaceTask
              { t with is_completed := !t.is_completed, updated_at := now })
            user_id task_id user_id now2
          = .ok ({ t with is_completed := (!(!t.is_completed)), updated_at := now2 },
              (db.replaceTask
                  { t with is_completed := !t.is_completed, updated_at := now }).replaceTask
                { t with is_completed := (!(!t.is_completed)), updated_at := now2 })
      ∧ (!(!t.is_completed)) = t.is_completed
      ∧ (∃ m1 : String,
          execute_complete_impl db user_id ident now
            = (TaskOpResult.ok
                { t with is_completed := !t.is_completed, updated_at := now }
                m1,
               db.replaceTask
                 { t with is_completed := !t.is_completed, updated_at := now }))
      ∧ (∃ m2 : String,
          execute_complete_impl
              (db.replaceTask
                { t with is_completed := !t.is_completed, updated_at := now })
              user_id ident now2
            = (TaskOpResult.ok
                { t with is_completed := (!(!t.is_completed)), updated_at := now2 }
                m2,
               (db.replaceTask
                   { t with is_completed := !t.is_completed, updated_at := now }).replaceTask
                 { t with is_completed := (!(!t.is_completed)), updated_at := now2 })) := by
  have hpred : ∀ x ∈ db.tasks,
      x.id = ({ t with is_completed := !t.is_completed, updated_at := now } : Task).id →
      (decide (x.id = task_id))
        = (decide ((({ t with is_completed := !t.is_completed, updated_at := now } : Task)).id = task_id)) := by
    intro x _ hxid
    rw [hxid]
  have hfind2 := find?_replaceTaskRow db.tasks
    { t with is_completed := !t.is_completed, updated_at := now }
    (fun x => decide (x.id = task_id)) hnodup hpred
  rw [hfind] at hfind2
  have hfind3 : (replaceTaskRow db.tasks
      { t with is_completed := !t.is_completed, updated_at := now }).find?
        (fun x => decide (x.id = task_id))
      = some { t with is_completed := !t.is_completed, updated_at := now } := by
    rw [hfind2]
    show some (if t.id = t.id then _ else t) = _
    rw [if_pos rfl]
  have hstab := resolve_task_impl_stable db user_id ident t
    { t with is_completed := !t.is_completed, updated_at := now }
    hnodup hres rfl rfl rfl
  refine ⟨toggle_complete_ok db user_id task_id now t hfind howner, ?_,
    Bool.not_not _, ?_, ?_⟩
  · exact toggle_complete_ok
      (db.replaceTask
        { t with is_completed := !t.is_completed, updated_at := now })
      user_id task_id now2
      { t with is_completed := !t.is_completed, updated_at := now }
      hfind3 howner
  · unfold execute_complete_impl
    rw [hres]
    exact ⟨_, rfl⟩
  · unfold execute_complete_impl
    rw [hstab]
    exact ⟨_, rfl⟩

/-- Witness for C10: one task "Pay rent" (id 1, incomplete) owned by user 1;
toggling via the REST endpoint marks it complete, toggling again restores
incomplete. -/
theorem c10_complete_is_toggle_witness :
    toggle_complete ⟨[⟨1, 1, "Pay rent", none, false, 5, 5⟩], [], 2⟩ 1 1 1 10
        = .ok (⟨1, 1, "Pay rent", none, true, 5, 10⟩,
            DB.replaceTask ⟨[⟨1, 1, "Pay rent", none, false, 5, 5⟩], [], 2⟩
              ⟨1, 1, "Pay rent", none, true, 5, 10⟩)
      ∧ toggle_complete
            (DB.replaceTask ⟨[⟨1, 1, "Pay rent", none, false, 5, 5⟩], [], 2⟩
              ⟨1, 1, "Pay rent", none, true, 5, 10⟩) 1 1 1 20
          = .ok (⟨1, 1, "Pay rent", none, false, 5, 20⟩,
              (DB.replaceTask ⟨[⟨1, 1, "Pay rent", none, false, 5, 5⟩], [], 2⟩
                  ⟨1, 1, "Pay rent", none, true, 5, 10⟩).replaceTask
                ⟨1, 1, "Pay rent", none, false, 5, 20⟩) := by
  have h := c10_complete_is_toggle
    ⟨[⟨1, 1, "Pay rent", none, false, 5, 5⟩], [], 2⟩ 1 1 10 20
    ⟨1, 1, "Pay rent", none, false, 5, 5⟩ "1"
    (by decide) (by decide) (by decide) (by decide)
  exact ⟨h.1, h.2.1⟩

/-! ## C8: the confirmed-create round trip -/

/-- On a pending action owned by the caller, `confirm_action` reaches the
dispatch and records its outcome. -/
theorem confirm_action_pending_eq (db : DB) (action_id A now : Nat)
    (ta : TaskAction)
    (hfind : db.actions.find? (fun a => decide (a.id = action_id)) = some ta)
    (howner : ta.user_id = A)
    (hpending : ta.confirmation_status = ConfirmationStatus.pending) :
    confirm_action db action_id A now
      = (match dispatchAction
            (db.replaceAction { ta with
              confirmation_status := ConfirmationStatus.confirmed,
              confirmed_at := some now,
              executed_status := ExecutedStatus.executing }) A
            { ta with
              confirmation_status := ConfirmationStatus.confirmed,
              confirmed_at := some now,
              executed_status := ExecutedStatus.executing } now with
        | .ok out =>
          .ok (⟨ta.id, ConfirmationStatus.confirmed, ExecutedStatus.success,
                out.payload, none⟩,
               out.db.replaceAction { ta with
                 confirmation_status := ConfirmationStatus.confirmed,
                 confirmed_at := some now,
                 executed_status := ExecutedStatus.success,
                 executed_at := some now,
                 task_id := match out.new_task_id with
                   | some i => some i
                   | none => ta.task_id })
        | .error e =>
          .ok (⟨ta.id, ConfirmationStatus.confirmed, ExecutedStatus.failed,
                none, some e⟩,
               (db.replaceAction { ta with
                   confirmation_status := ConfirmationStatus.confirmed,
                   confirmed_at := some now,
                   executed_status := ExecutedStatus.executing }).replaceAction
                 { ta with
                   confirmation_status := ConfirmationStatus.confirmed,
                   confirmed_at := some now,
                   executed_status := ExecutedStatus.failed,
                   error_message := some e,
                   executed_at := some now })) := by
  have hval : validate_user_id_match ta.user_id A = .ok () := by
    unfold validate_user_id_match
    rw [if_neg (by simp [howner])]
  unfold confirm_action
  simp only [hfind, hval]
  rw [if_neg (by simp [hpending])]

/-- The task row the CREATE branch of `confirm_action` builds from the
extracted parameters: title and description stripped, a blank description
stored as null, `is_completed = false`, both timestamps the execution
time. -/
def created_task (p : ExtractedParams) (user_id next_id now : Nat) : Task :=
  ⟨next_id, user_id, strip (p.title.getD ""),
   (if strip (p.description.getD "") = "" then none
    else some (strip (p.description.getD ""))),
   false, now, now⟩

/-- The dispatch of a CREATE action with a title that survives stripping:
one new task row is appended and the response payload carries it. -/
theorem dispatch_create_ok (db : DB) (A now : Nat) (ta : TaskAction)
    (htype : ta.action_type = ActionType.create)
    (htitle : strip (ta.extracted_params.title.getD "") ≠ "") :
    dispatchAction db A ta now
      = .ok ⟨some (.taskData
            (created_task ta.extracted_params A db.next_task_id now)),
          some db.next_task_id,
          { db with
            tasks := db.tasks ++
              [created_task ta.extracted_params A db.next_task_id now],
            next_task_id := db.next_task_id + 1 }⟩ := by
  unfold dispatchAction
  rw [htype]
  show (if strip (ta.extracted_params.title.getD "") = ""
    then Except.error "Task title is required"
    else _) = _
  rw [if_neg htitle]
  rfl

/-- The head of the newest-first listing is the task with strictly greatest
`created_at`. -/
theorem sortTasksByCreatedDesc_head (l : List Task) (t : Task)
    (hmem : t ∈ l) (hmax : ∀ x ∈ l, x ≠ t → x.created_at < t.created_at) :
    (sortTasksByCreatedDesc l).head? = some t := by
  haveI htot : IsTotal Task (fun a b => b.created_at ≤ a.created_at) :=
    ⟨fun a b => Nat.le_total b.created_at a.created_at⟩
  haveI htrans : IsTrans Task (fun a b => b.created_at ≤ a.created_at) :=
    ⟨fun a b c hab hbc => Nat.le_trans hbc hab⟩
  have hperm := List.perm_insertionSort
    (fun a b : Task => b.created_at ≤ a.created_at) l
  have hsorted := List.sorted_insertionSort
    (fun a b : Task => b.created_at ≤ a.created_at) l
  unfold sortTasksByCreatedDesc
  cases hs : l.insertionSort (fun a b => b.created_at ≤ a.created_at) with
  | nil =>
    rw [hs] at hperm
    rw [hperm.symm.mem_iff] at hmem
    exact absurd hmem (List.not_mem_nil t)
  | cons y ys =>
    rw [hs] at hperm hsorted
    by_cases hyt : y = t
    · rw [hyt]
      rfl
    · have hymem : y ∈ l := hperm.mem_iff.mp (List.mem_cons_self _ _)
      have hylt : y.created_at < t.created_at := hmax y hymem hyt
      have htmem : t ∈ y :: ys := hperm.symm.mem_iff.mp hmem
      have htys : t ∈ ys := by
        cases List.mem_cons.mp htmem with
        | inl h => exact absurd h.symm hyt
        | inr h => exact h
      have hle : t.created_at ≤ y.created_at :=
        (List.sorted_cons.mp hsorted).1 t htys
      omega

theorem head?_take {l : List Task} {t : Task} {k : Nat}
    (h : l.head? = some t) (hk : k ≠ 0) : (l.take k).head? = some t := by
  cases l with
  | nil => exact absurd h (by simp)
  | cons x xs =>
    match k, hk with
    | m + 1, _ =>
      rw [List.take_succ_cons]
      injection h with h
      rw [List.head?_cons, h]

/-- C8 as amended: confirming a pending CREATE action whose extracted title
is non-empty after stripping appends exactly one task row — owned by the
confirming user, `is_completed = false`, title and description equal to the
stripped extracted parameters (a blank description becomes null) — and,
provided every existing row is older than the execution time, the plain
task-list endpoint returns that row first; rejecting the same pending action
instead leaves the tasks table unchanged and marks the action rejected. -/
theorem c8_confirmed_create_roundtrip (db : DB) (action_id A now : Nat)
    (ta : TaskAction)
    (hfind : db.actions.find? (fun a => decide (a.id = action_id)) = some ta)
    (howner : ta.user_id = A)
    (hpending : ta.confirmation_status = ConfirmationStatus.pending)
    (htype : ta.action_type = ActionType.create)
    (htitle : strip (ta.extracted_params.title.getD "") ≠ "")
    (hfresh : ∀ x ∈ db.tasks, x.created_at < now) :
    ∃ resp db2,
      confirm_action db action_id A now = .ok (resp, db2)
        ∧ db2.tasks = db.tasks ++
            [created_task ta.extracted_params A db.next_task_id now]
        ∧ resp.executed_status = ExecutedStatus.success
        ∧ resp.task = some (TaskPayload.taskData
            (created_task ta.extracted_params A db.next_task_id now))
        ∧ (∃ r, list_tasks db2 A 0 100 A = .ok r
            ∧ r.head? = some
                (created_task ta.extracted_params A db.next_task_id now))
        ∧ (∃ resp2 db3, reject_action db action_id A now = .ok (resp2, db3)
            ∧ db3.tasks = db.tasks
            ∧ resp2.confirmation_status = ConfirmationStatus.rejected) := by
  have hconf := confirm_action_pending_eq db action_id A now ta hfind howner
    hpending
  have hdisp := dispatch_create_ok
    (db.replaceAction { ta with
      confirmation_status := ConfirmationStatus.confirmed,
      confirmed_at := some now,
      executed_status := ExecutedStatus.executing }) A now
    { ta with
      confirmation_status := ConfirmationStatus.confirmed,
      confirmed_at := some now,
      executed_status := ExecutedStatus.executing } htype htitle
  rw [hdisp] at hconf
  have hconf2 : confirm_action db action_id A now
      = .ok ((⟨ta.id, ConfirmationStatus.confirmed, ExecutedStatus.success,
           some (TaskPayload.taskData
             (created_task ta.extracted_params A db.next_task_id now)),
           none⟩ : ConfirmActionResponse),
         DB.replaceAction
           { db with
             tasks := db.tasks ++
               [created_task ta.extracted_params A db.next_task_id now],
             actions := replaceActionRow db.actions
               { ta with
                 confirmation_status := ConfirmationStatus.confirmed,
                 confirmed_at := some now,
                 executed_status := ExecutedStatus.executing },
             next_task_id := db.next_task_id + 1 }
           { ta with
             confirmation_status := ConfirmationStatus.confirmed,
             confirmed_at := some now,
             executed_status := ExecutedStatus.success,
             executed_at := some now,
             task_id := some db.next_task_id }) := hconf
  have hval : validate_user_id_match A A = .ok () := by
    unfold validate_user_id_match
    rw [if_neg (by simp)]
  refine ⟨_, _, hconf2, rfl, rfl, rfl, ?_, ?_⟩
  · -- the task-list endpoint returns the fresh row first
    have hlist : ∀ dbx : DB,
        dbx.tasks = db.tasks ++
          [created_task ta.extracted_params A db.next_task_id now] →
        list_tasks dbx A 0 100 A
        = .ok (((sortTasksByCreatedDesc
            ((db.tasks ++
              [created_task ta.extracted_params A db.next_task_id now]).filter
              (fun x => decide (x.user_id = A)))).drop
            (Int.toNat 0)).take (Int.toNat 100)) := by
      intro dbx htasks
      unfold list_tasks
      simp only [hval, htasks]
      rfl
    have hnewmem : created_task ta.extracted_params A db.next_task_id now ∈
        (db.tasks ++
          [created_task ta.extracted_params A db.next_task_id now]).filter
          (fun x => decide (x.user_id = A)) := by
      rw [List.filter_append]
      apply List.mem_append_right
      simp [created_task]
    have hmax : ∀ x ∈ (db.tasks ++
        [created_task ta.extracted_params A db.next_task_id now]).filter
          (fun x => decide (x.user_id = A)),
        x ≠ created_task ta.extracted_params A db.next_task_id now →
        x.created_at <
          (created_task ta.extracted_params A db.next_task_id now).created_at := by
      intro x hx hneq
      have hx2 := List.mem_of_mem_filter hx
      cases List.mem_append.mp hx2 with
      | inl h => exact hfresh x h
      | inr h => exact absurd (List.mem_singleton.mp h) hneq
    have hhead := sortTasksByCreatedDesc_head _ _ hnewmem hmax
    exact ⟨_, hlist _ rfl, head?_take hhead (by decide)⟩
  · have hrej : reject_action db action_id A now
        = .ok ((⟨ta.id, ConfirmationStatus.rejected, ta.executed_status,
              none, none⟩ : ConfirmActionResponse),
            db.replaceAction { ta with
              confirmation_status := ConfirmationStatus.rejected,
              confirmed_at := some now }) := by
      unfold reject_action
      have hval2 : validate_user_id_match ta.user_id A = .ok () := by
        unfold validate_user_id_match
        rw [if_neg (by simp [howner])]
      simp only [hfind, hval2]
      rw [if_neg (by simp [hpending])]
    exact ⟨_, _, hrej, rfl, rfl⟩

/-- C8 counterexample: a pending CREATE action whose extracted title is the
non-empty string `" "` creates no task row when confirmed — the endpoint
strips the title, finds it empty and marks the execution failed — so the
claim's reading (any non-empty extracted title yields a Task equal to the
raw parameters) is false at this input. -/
theorem c8_counterexample_whitespace_title :
    confirm_action
        ⟨[], [⟨1, 1, ActionType.create, ⟨some " ", none, none, none, none⟩,
              ConfirmationStatus.pending, ExecutedStatus.not_executed, none,
              none, 5, none, none⟩], 1⟩ 1 1 10
        = .ok (⟨1, ConfirmationStatus.confirmed, ExecutedStatus.failed, none,
                some "Task title is required"⟩,
               ⟨[], [⟨1, 1, ActionType.create, ⟨some " ", none, none, none,
                      none⟩,
                     ConfirmationStatus.confirmed, ExecutedStatus.failed, none,
                     some "Task title is required", 5, some 10, some 10⟩], 1⟩)
      ∧ some " " ≠ (some "" : Option String) := by
  constructor
  · decide
  · decide

/-- Witness for the amended C8 at a concrete database: one old task, one
pending CREATE action with title " Buy milk " and blank description;
confirmation succeeds. -/
theorem c8_confirmed_create_roundtrip_witness :
    (confirm_action
        ⟨[⟨7, 1, "Old", none, false, 3, 3⟩],
         [⟨1, 1, ActionType.create,
           ⟨some " Buy milk ", some " ", none, none, none⟩,
           ConfirmationStatus.pending, ExecutedStatus.not_executed, none,
           none, 5, none, none⟩], 10⟩ 1 1 20).isOk = true := by
  obtain ⟨resp, db2, heq, -⟩ := c8_confirmed_create_roundtrip
    ⟨[⟨7, 1, "Old", none, false, 3, 3⟩],
     [⟨1, 1, ActionType.create,
       ⟨some " Buy milk ", some " ", none, none, none⟩,
       ConfirmationStatus.pending, ExecutedStatus.not_executed, none,
       none, 5, none, none⟩], 10⟩ 1 1 20
    ⟨1, 1, ActionType.create,
     ⟨some " Buy milk ", some " ", none, none, none⟩,
     ConfirmationStatus.pending, ExecutedStatus.not_executed, none,
     none, 5, none, none⟩
    (by decide) (by decide) (by decide) (by decide) (by decide) (by decide)
  rw [heq]
  rfl

/-! ## C1: user isolation -/

theorem list_tasks_user (db : DB) (A : Nat) (skip limit : Int)
    (r : List Task) (h : list_tasks db A skip limit A = .ok r) :
    ∀ t ∈ r, t.user_id = A := by
  have hval : validate_user_id_match A A = .ok () := by
    unfold validate_user_id_match
    rw [if_neg (by simp)]
  unfold list_tasks at h
  simp only [hval] at h
  split at h
  · exact absurd h (by simp)
  · split at h
    · exact absurd h (by simp)
    · injection h with h
      subst h
      intro t ht
      have h1 : t ∈ (sortTasksByCreatedDesc
          (db.tasks.filter (fun x => decide (x.user_id = A)))).drop
            skip.toNat :=
        List.mem_of_mem_take ht
      have h2 : t ∈ sortTasksByCreatedDesc
          (db.tasks.filter (fun x => decide (x.user_id = A))) :=
        List.mem_of_mem_drop h1
      have h3 : t ∈ db.tasks.filter (fun x => decide (x.user_id = A)) := by
        unfold sortTasksByCreatedDesc at h2
        exact (List.perm_insertionSort _ _).mem_iff.mp h2
      exact of_decide_eq_true (List.mem_filter.mp h3).2

theorem get_task_user (db : DB) (A task_id : Nat) (t : Task)
    (h : get_task db A task_id A = .ok t) : t.user_id = A := by
  have hval : validate_user_id_match A A = .ok () := by
    unfold validate_user_id_match
    rw [if_neg (by simp)]
  unfold get_task at h
  simp only [hval] at h
  split at h
  · exact absurd h (by simp)
  · split at h
    · exact absurd h (by simp)
    · injection h with h
      subst h
      next hne => exact Decidable.not_not.mp hne

theorem execute_query_impl_user (db : DB) (u : Nat) (filters : QueryFilters) :
    ∀ t ∈ (execute_query_impl db u filters).tasks, t.user_id = u := by
  intro t ht
  unfold execute_query_impl at ht
  simp only at ht
  have hmem : t ∈ db.tasks.filter (fun x => decide (x.user_id = u)) := by
    split at ht
    all_goals try split at ht
    all_goals try split at ht
    all_goals try split at ht
    all_goals first
      | exact ht
      | exact List.mem_of_mem_filter ht
      | exact List.mem_of_mem_filter (List.mem_of_mem_filter ht)
  exact of_decide_eq_true (List.mem_filter.mp hmem).2

theorem get_pending_actions_user (db : DB) (u : Nat) :
    ∀ a ∈ get_pending_actions db u, a.user_id = u := by
  intro a ha
  unfold get_pending_actions at ha
  have h1 : a ∈ db.actions.filter
      (fun x => decide (x.user_id = u)
        && decide (x.confirmation_status = ConfirmationStatus.pending)) :=
    (List.perm_insertionSort _ _).mem_iff.mp ha
  have h2 := List.of_mem_filter h1
  rw [Bool.and_eq_true, decide_eq_true_eq] at h2
  exact h2.1

theorem confirm_reject_foreign (db : DB) (A action_id now : Nat)
    (ta : TaskAction)
    (hfind : db.actions.find? (fun a => decide (a.id = action_id)) = some ta)
    (hforeign : ta.user_id ≠ A) :
    confirm_action db action_id A now
        = .error ⟨403, "Cannot access other user's resources"⟩
      ∧ reject_action db action_id A now
        = .error ⟨403, "Cannot access other user's resources"⟩ := by
  have hval : validate_user_id_match ta.user_id A
      = .error ⟨403, "Cannot access other user's resources"⟩ := by
    unfold validate_user_id_match
    rw [if_pos hforeign]
  constructor
  · unfold confirm_action
    simp only [hfind, hval]
  · unfold reject_action
    simp only [hfind, hval]

theorem applyUpdates_id_user (t : Task) (u : UpdateFields) (now : Nat) :
    (applyUpdates t u now).id = t.id
      ∧ (applyUpdates t u now).user_id = t.user_id := by
  unfold applyUpdates
  constructor
  all_goals repeat' split
  all_goals rfl

theorem user_ne_decide {t : Task} {u b : Nat} (howner : t.user_id = u)
    (hbu : b ≠ u) : decide (t.user_id = b) = false := by
  apply decide_eq_false
  rw [howner]
  exact fun hc => hbu hc.symm

theorem replace_same_row_frame (db : DB) (t t3 : Task) (b u : Nat)
    (hnodup : (db.tasks.map Task.id).Nodup) (hmem : t ∈ db.tasks)
    (howner : t.user_id = u) (hbu : b ≠ u)
    (hid : t3.id = t.id) (huser : t3.user_id = t.user_id) :
    (db.replaceTask t3).tasks.filter (fun x => decide (x.user_id = b))
      = db.tasks.filter (fun x => decide (x.user_id = b)) := by
  apply filter_replaceTaskRow_frame _ _ _ hnodup
  · intro x hx hxid
    have hxt : x = t := task_id_inj hnodup hx hmem (by rw [hxid, hid])
    rw [hxt]
    exact user_ne_decide howner hbu
  · rw [huser]
    exact user_ne_decide howner hbu

theorem execute_update_impl_frame (db : DB) (u b : Nat) (ident : String)
    (updates : UpdateFields) (now : Nat)
    (hnodup : (db.tasks.map Task.id).Nodup) (hbu : b ≠ u) :
    ((execute_update_impl db u ident updates now).2).tasks.filter
        (fun x => decide (x.user_id = b))
      = db.tasks.filter (fun x => decide (x.user_id = b)) := by
  unfold execute_update_impl
  cases hres : resolve_task_impl db u ident with
  | none =>
    split
    · by_cases hl : 1 < (titleMatches db u ident).length
      · rw [if_pos hl]
      · rw [if_neg hl]
    · simp_all
  | some t =>
    obtain ⟨hmem, howner⟩ := resolve_task_impl_mem db u ident t hres
    show (db.replaceTask (applyUpdates t updates now)).tasks.filter _ = _
    exact replace_same_row_frame db t _ b u hnodup hmem howner hbu
      (applyUpdates_id_user t updates now).1
      (applyUpdates_id_user t updates now).2

theorem execute_complete_impl_frame (db : DB) (u b : Nat) (ident : String)
    (now : Nat)
    (hnodup : (db.tasks.map Task.id).Nodup) (hbu : b ≠ u) :
    ((execute_complete_impl db u ident now).2).tasks.filter
        (fun x => decide (x.user_id = b))
      = db.tasks.filter (fun x => decide (x.user_id = b)) := by
  unfold execute_complete_impl
  cases hres : resolve_task_impl db u ident with
  | none =>
    split
    · by_cases hl : 1 < (titleMatches db u ident).length
      · rw [if_pos hl]
      · rw [if_neg hl]
    · simp_all
  | some t =>
    obtain ⟨hmem, howner⟩ := resolve_task_impl_mem db u ident t hres
    show (db.replaceTask
        { t with is_completed := !t.is_completed, updated_at := now }).tasks.filter _ = _
    exact replace_same_row_frame db t _ b u hnodup hmem howner hbu rfl rfl

theorem execute_delete_impl_frame (db : DB) (u b : Nat)
    (task_identifier : Option String) (bulk_criteria : Option BulkCriteria)
    (hnodup : (db.tasks.map Task.id).Nodup) (hbu : b ≠ u) :
    ((execute_delete_impl db u task_identifier bulk_criteria).2).tasks.filter
        (fun x => decide (x.user_id = b))
      = db.tasks.filter (fun x => decide (x.user_id = b)) := by
  unfold execute_delete_impl
  cases hcond : (strOptTruthy task_identifier && bulk_criteria.isNone) with
  | false =>
    rw [if_neg (by simp)]
    cases bulk_criteria <;> rfl
  | true =>
    rw [if_pos rfl]
    simp only []
    cases hres : resolve_task_impl db u (task_identifier.getD "") with
    | none =>
      split
      · by_cases hl :
            1 < (titleMatches db u (task_identifier.getD "")).length
        · rw [if_pos hl]
        · rw [if_neg hl]
      · simp_all
    | some t =>
      obtain ⟨hmem, howner⟩ :=
        resolve_task_impl_mem db u (task_identifier.getD "") t hres
      show (List.eraseP (fun x => decide (x.id = t.id)) db.tasks).filter _ = _
      apply filter_eraseP_of_pred_false
      intro x hx hxid
      have hxt : x = t := task_id_inj hnodup hx hmem hxid
      rw [hxt]
      exact user_ne_decide howner hbu

theorem update_task_frame (db : DB) (A b task_id : Nat)
    (title description : Option String) (now : Nat) (r : Task) (db2 : DB)
    (hnodup : (db.tasks.map Task.id).Nodup) (hbu : b ≠ A)
    (h : update_task db A task_id title description A now = .ok (r, db2)) :
    db2.tasks.filter (fun x => decide (x.user_id = b))
      = db.tasks.filter (fun x => decide (x.user_id = b)) := by
  have hval : validate_user_id_match A A = .ok () := by
    unfold validate_user_id_match
    rw [if_neg (by simp)]
  unfold update_task at h
  simp only [hval] at h
  split at h
  · exact absurd h (by simp)
  · next t heq =>
    split at h
    · exact absurd h (by simp)
    · next hne =>
      have howner : t.user_id = A := Decidable.not_not.mp hne
      have hmem : t ∈ db.tasks := List.mem_of_find?_eq_some heq
      injection h with h
      rw [Prod.mk.injEq] at h
      obtain ⟨-, h2⟩ := h
      subst h2
      cases title <;> cases description <;>
        exact replace_same_row_frame db t _ b A hnodup hmem howner hbu
          rfl rfl

theorem delete_task_frame (db : DB) (A b task_id : Nat) (db2 : DB)
    (hnodup : (db.tasks.map Task.id).Nodup) (hbu : b ≠ A)
    (h : delete_task db A task_id A = .ok db2) :
    db2.tasks.filter (fun x => decide (x.user_id = b))
      = db.tasks.filter (fun x => decide (x.user_id = b)) := by
  have hval : validate_user_id_match A A = .ok () := by
    unfold validate_user_id_match
    rw [if_neg (by simp)]
  unfold delete_task at h
  simp only [hval] at h
  split at h
  · exact absurd h (by simp)
  · next t heq =>
    split at h
    · exact absurd h (by simp)
    · next hne =>
      have howner : t.user_id = A := Decidable.not_not.mp hne
      have hmem : t ∈ db.tasks := List.mem_of_find?_eq_some heq
      have htid : t.id = task_id := by
        have h1 := List.find?_some heq
        rwa [decide_eq_true_eq] at h1
      injection h with h
      subst h
      apply filter_eraseP_of_pred_false
      intro x hx hxid
      have hxt : x = t := task_id_inj hnodup hx hmem (by rw [hxid, htid])
      rw [hxt]
      exact user_ne_decide howner hbu

theorem toggle_complete_frame (db : DB) (A b task_id now : Nat) (r : Task)
    (db2 : DB)
    (hnodup : (db.tasks.map Task.id).Nodup) (hbu : b ≠ A)
    (h : toggle_complete db A task_id A now = .ok (r, db2)) :
    db2.tasks.filter (fun x => decide (x.user_id = b))
      = db.tasks.filter (fun x => decide (x.user_id = b)) := by
  have hval : validate_user_id_match A A = .ok () := by
    unfold validate_user_id_match
    rw [if_neg (by simp)]
  unfold toggle_complete at h
  simp only [hval] at h
  split at h
  · exact absurd h (by simp)
  · next t heq =>
    split at h
    · exact absurd h (by simp)
    · next hne =>
      have howner : t.user_id = A := Decidable.not_not.mp hne
      have hmem : t ∈ db.tasks := List.mem_of_find?_eq_some heq
      injection h with h
      rw [Prod.mk.injEq] at h
      obtain ⟨-, h2⟩ := h
      subst h2
      exact replace_same_row_frame db t _ b A hnodup hmem howner hbu rfl rfl

/-- C1: user isolation.  Every read path executed as user `A` returns only
rows whose `user_id` is `A` (so, for `A ≠ B`, never one of B's): the task
list, the single-task read, the AI query execution, task resolution, and the
pending-action list.  Confirming or rejecting a `TaskAction` owned by `B`
while authenticated as `A` fails with 403 before any mutation (an error
reply carries no modified database).  And every write path executed as `A` —
the AI update/complete/delete executions and the REST update, delete and
toggle endpoints — leaves B's task rows exactly as they were. -/
theorem c1_user_isolation (db : DB) (A B : Nat) (hAB : A ≠ B)
    (hnodup : (db.tasks.map Task.id).Nodup) :
    (∀ skip limit r, list_tasks db A skip limit A = .ok r →
        ∀ t ∈ r, t.user_id = A ∧ t.user_id ≠ B)
      ∧ (∀ task_id t, get_task db A task_id A = .ok t → t.user_id = A)
      ∧ (∀ filters, ∀ t ∈ (execute_query_impl db A filters).tasks,
          t.user_id = A)
      ∧ (∀ ident t, resolve_task_impl db A ident = some t → t.user_id = A)
      ∧ (∀ a ∈ get_pending_actions db A, a.user_id = A)
      ∧ (∀ action_id ta now,
          db.actions.find? (fun a => decide (a.id = action_id)) = some ta →
          ta.user_id = B →
          confirm_action db action_id A now
              = .error ⟨403, "Cannot access other user's resources"⟩
            ∧ reject_action db action_id A now
              = .error ⟨403, "Cannot access other user's resources"⟩)
      ∧ (∀ ident updates now,
          ((execute_update_impl db A ident updates now).2).tasks.filter
              (fun x => decide (x.user_id = B))
            = db.tasks.filter (fun x => decide (x.user_id = B)))
      ∧ (∀ ident now,
          ((execute_complete_impl db A ident now).2).tasks.filter
              (fun x => decide (x.user_id = B))
            = db.tasks.filter (fun x => decide (x.user_id = B)))
      ∧ (∀ tid bulk,
          ((execute_delete_impl db A tid bulk).2).tasks.filter
              (fun x => decide (x.user_id = B))
            = db.tasks.filter (fun x => decide (x.user_id = B)))
      ∧ (∀ task_id title desc now r db2,
          update_task db A task_id title desc A now = .ok (r, db2) →
          db2.tasks.filter (fun x => decide (x.user_id = B))
            = db.tasks.filter (fun x => decide (x.user_id = B)))
      ∧ (∀ task_id db2, delete_task db A task_id A = .ok db2 →
          db2.tasks.filter (fun x => decide (x.user_id = B))
            = db.tasks.filter (fun x => decide (x.user_id = B)))
      ∧ (∀ task_id now r db2,
          toggle_complete db A task_id A now = .ok (r, db2) →
          db2.tasks.filter (fun x => decide (x.user_id = B))
            = db.tasks.filter (fun x => decide (x.user_id = B))) := by
  refine ⟨?_, ?_, ?_, ?_, ?_, ?_, ?_, ?_, ?_, ?_, ?_, ?_⟩
  · intro skip limit r hr t ht
    have h1 := list_tasks_user db A skip limit r hr t ht
    exact ⟨h1, by rw [h1]; exact hAB⟩
  · intro task_id t ht
    exact get_task_user db A task_id t ht
  · intro filters t ht
    exact execute_query_impl_user db A filters t ht
  · intro ident t ht
    exact (resolve_task_impl_mem db A ident t ht).2
  · exact get_pending_actions_user db A
  · intro action_id ta now hfind hB
    exact confirm_reject_foreign db A action_id now ta hfind
      (by rw [hB]; exact fun hc => hAB hc.symm)
  · intro ident updates now
    exact execute_update_impl_frame db A B ident updates now hnodup
      (Ne.symm hAB)
  · intro ident now
    exact execute_complete_impl_frame db A B ident now hnodup (Ne.symm hAB)
  · intro tid bulk
    exact execute_delete_impl_frame db A B tid bulk hnodup (Ne.symm hAB)
  · intro task_id title desc now r db2 h
    exact update_task_frame db A B task_id title desc now r db2 hnodup
      (Ne.symm hAB) h
  · intro task_id db2 h
    exact delete_task_frame db A B task_id db2 hnodup (Ne.symm hAB) h
  · intro task_id now r db2 h
    exact toggle_complete_frame db A B task_id now r db2 hnodup
      (Ne.symm hAB) h

/-- Witness for C1: user 1's attempt to confirm an action owned by user 2
is refused with 403. -/
theorem c1_user_isolation_witness :
    confirm_action
        ⟨[⟨1, 1, "Mine", none, false, 3, 3⟩,
          ⟨2, 2, "Theirs", none, false, 4, 4⟩],
         [⟨5, 2, ActionType.create, ⟨some "x", none, none, none, none⟩,
           ConfirmationStatus.pending, ExecutedStatus.not_executed, none,
           none, 6, none, none⟩], 3⟩ 5 1 9
      = .error ⟨403, "Cannot access other user's resources"⟩ :=
  ((c1_user_isolation
      ⟨[⟨1, 1, "Mine", none, false, 3, 3⟩,
        ⟨2, 2, "Theirs", none, false, 4, 4⟩],
       [⟨5, 2, ActionType.create, ⟨some "x", none, none, none, none⟩,
         ConfirmationStatus.pending, ExecutedStatus.not_executed, none,
         none, 6, none, none⟩], 3⟩ 1 2 (by decide)
      (by decide)).2.2.2.2.2.1 5
    ⟨5, 2, ActionType.create, ⟨some "x", none, none, none, none⟩,
     ConfirmationStatus.pending, ExecutedStatus.not_executed, none,
     none, 6, none, none⟩ 9 (by decide) (by decide)).1

end TodoSpec
